import Mathlib

/-!
Network QoS controller, owner-ID decoding, health-check server and generated row types

A shallow embedding of

* the informer event handlers, the queue rate limiters and the start-up sequence `Run` of
  `go-controller/pkg/ovn/controller/network_qos/network_qos_controller.go`;
* the ACL event decoder exercised by
  `go-controller/observability-lib/sampledecoder/sample_decoder_test.go`;
* the health-check server exercised by
  `go-controller/pkg/kube/healthcheck/healthcheck_test.go`;
* the generated row types of `go-controller/pkg/nbdb/port_group.go` and
  `go-controller/pkg/vswitchd/manager.go`;
* the helper `computeIPWithOffset` of `test/e2e/multihoming.go`.

Conventions of the embedding:

* a Go pointer `*T` is an `Option T` (`none` is the nil pointer);
* a Go `map[string]string` is an `Option StringMap` (`none` is the nil map);
* a value of Go type `any` is an `Obj`, which records the dynamic type;
* a work queue is represented by the sequence of items handed to its `Add`
  method, oldest first; `utilruntime.HandleError` appends to `handledErrors`;
* a handler that can dereference a nil pointer returns `Option Controller`,
  where `none` is the run-time panic; `klog` output is not modelled.
-/

namespace networkqos

/-! ## Data model -/

/-- The non-nil values of a Go `map[string]string`: finitely many entries with
pairwise distinct keys. -/
structure StringMap where
  entries : List (String × String)
  nodup : (entries.map Prod.fst).Nodup

/-- Go `len(m)` on a possibly nil map. -/
def StringMap.len (m : Option StringMap) : Nat :=
  match m with
  | none => 0
  | some m => m.entries.length

/-- Go `v, ok := m[k]` on a possibly nil map. -/
def StringMap.get? (m : Option StringMap) (k : String) : Option String :=
  match m with
  | none => none
  | some m => m.entries.lookup k

/-- Go `m[k]` on a possibly nil map: the zero value when the key is absent. -/
def StringMap.get (m : Option StringMap) (k : String) : String :=
  (StringMap.get? m k).getD ""

/-- The entries a Go `range` over a possibly nil map visits. -/
def StringMap.range (m : Option StringMap) : List (String × String) :=
  match m with
  | none => []
  | some m => m.entries

/-- A `metav1.Time`: the distance from the zero instant. -/
structure Time where
  nanos : Nat
deriving DecidableEq

/-- The method `(*metav1.Time).IsZero`: true for a nil pointer and for the zero instant. -/
def Time.IsZero (t : Option Time) : Bool :=
  match t with
  | none => true
  | some t => t.nanos == 0

/-- The fields of `metav1.ObjectMeta` that the handlers read. -/
structure ObjectMeta where
  Name : String
  Namespace : String
  ResourceVersion : String
  DeletionTimestamp : Option Time
  Labels : Option StringMap
  Annotations : Option StringMap

/-- The method `GetDeletionTimestamp`. -/
def ObjectMeta.GetDeletionTimestamp (m : ObjectMeta) : Option Time := m.DeletionTimestamp

/-- A `networkqosapi.NetworkQoS`: its metadata and its `Spec`. The type of `Spec` is declared
in the package `crd/networkqos/v1alpha1` and is a parameter here. -/
structure NetworkQoS (Spec : Type) where
  meta : ObjectMeta
  Spec : Spec

/-- A `corev1.Namespace`. -/
structure Namespace where
  meta : ObjectMeta

/-- A `corev1.Pod`: metadata, `Spec.NodeName`, `Status.Phase` and `Status.PodIPs`. -/
structure Pod where
  meta : ObjectMeta
  NodeName : String
  Phase : String
  PodIPs : List String

/-- A `corev1.Node`. -/
structure Node where
  meta : ObjectMeta

/-- A value of Go type `any` as the informer callbacks receive it, with its dynamic type.
`tombstone key obj` is a `cache.DeletedFinalStateUnknown` with fields `Key` and `Obj`, `explicitKey` a
`cache.ExplicitKey`, `other` a value of any further type. -/
inductive Obj (Spec : Type) where
  | nil : Obj Spec
  | ofNetworkQoS (p : Option (NetworkQoS Spec)) : Obj Spec
  | ofNamespace (p : Option Namespace) : Obj Spec
  | ofPod (p : Option Pod) : Obj Spec
  | ofNode (p : Option Node) : Obj Spec
  | tombstone (key : String) (obj : Obj Spec) : Obj Spec
  | explicitKey (key : String) : Obj Spec
  | other : Obj Spec

/-- The struct `eventData[T]`: a pair of pointers. -/
structure eventData (T : Type) where
  old : Option T
  new : Option T

/-- The constructor `newEventData`. -/
def newEventData {T : Type} (old new : Option T) : eventData T :=
  { old := old, new := new }

/-- The errors the handlers pass to `utilruntime.HandleError`, one constructor per call
site; the offending object stands for its formatted text. -/
inductive HandledError (Spec : Type) where
  | couldntGetKey (obj : Obj Spec) (err : String) : HandledError Spec
  | expectingNetworkQoS (obj : Obj Spec) : HandledError Spec
  | expectingNamespace (obj : Obj Spec) : HandledError Spec
  | expectingPod (obj : Obj Spec) : HandledError Spec
  | expectingNode (obj : Obj Spec) : HandledError Spec
  | emptyNamespace : HandledError Spec
  | emptyPod : HandledError Spec
  | couldntGetObjectFromTombstone (obj : Obj Spec) : HandledError Spec
  | tombstoneNotNamespace (obj : Obj Spec) : HandledError Spec
  | tombstoneNotPod (obj : Obj Spec) : HandledError Spec

/-- The part of `Controller` the handlers act on: for each of the four work queues the
items passed to `Add`, and the errors reported so far. -/
structure Controller (Spec : Type) where
  nqosQueue : List String
  nqosNamespaceQueue : List (eventData Namespace)
  nqosPodQueue : List (eventData Pod)
  nqosNodeQueue : List String
  handledErrors : List (HandledError Spec)

/-- The helpers the handlers call that are defined in package `util` and in other files of
package `networkqos`, taken as parameters.
`GetPodIPsOfNetwork` is `util.GetPodIPsOfNetwork` at the controller's `NetInfo` (the
address list and the error), `PodCompleted` is `util.PodCompleted`,
`isNodeInLocalZone` is the controller method of that name and
`NodeZoneAnnotationChanged` is `util.NodeZoneAnnotationChanged`. -/
structure Helpers where
  GetPodIPsOfNetwork : Pod → List String × Option String
  PodCompleted : Pod → Bool
  isNodeInLocalZone : Node → Bool
  NodeZoneAnnotationChanged : Node → Node → Bool

section handlers

variable {Spec : Type} [DecidableEq Spec]

/-- The call `c.nqosQueue.Add(key)`. -/
def Controller.nqosQueueAdd (c : Controller Spec) (key : String) : Controller Spec :=
  { c with nqosQueue := c.nqosQueue ++ [key] }

/-- The call `c.nqosNamespaceQueue.Add(item)`. -/
def Controller.nqosNamespaceQueueAdd (c : Controller Spec) (item : eventData Namespace) :
    Controller Spec :=
  { c with nqosNamespaceQueue := c.nqosNamespaceQueue ++ [item] }

/-- The call `c.nqosPodQueue.Add(item)`. -/
def Controller.nqosPodQueueAdd (c : Controller Spec) (item : eventData Pod) : Controller Spec :=
  { c with nqosPodQueue := c.nqosPodQueue ++ [item] }

/-- The call `c.nqosNodeQueue.Add(key)`. -/
def Controller.nqosNodeQueueAdd (c : Controller Spec) (key : String) : Controller Spec :=
  { c with nqosNodeQueue := c.nqosNodeQueue ++ [key] }

/-- The call `utilruntime.HandleError(err)`. -/
def Controller.HandleError (c : Controller Spec) (err : HandledError Spec) : Controller Spec :=
  { c with handledErrors := c.handledErrors ++ [err] }

/-- The call `reflect.DeepEqual` on two `Spec` values: structural equality. -/
def DeepEqual (a b : Spec) : Bool := decide (a = b)

/-! ## Library functions of client-go and apimachinery -/

/-- The method `cache.ObjectName.String`: `namespace/name`, or the bare name when the
namespace is empty. -/
def ObjectName.String (m : ObjectMeta) : String :=
  if m.Namespace.length > 0 then m.Namespace ++ "/" ++ m.Name else m.Name

/-- Outcome of a key function: a key, an error, or a panic on a nil pointer. -/
inductive KeyResult where
  | key (k : String)
  | err (msg : String)
  | panic
deriving DecidableEq

/-- The text of the error `cache.ObjectToName` returns for a value without object metadata. -/
def errNoMeta : String :=
  "object has no meta: object does not implement the Object interfaces"

/-- The client-go function `cache.MetaNamespaceKeyFunc`: an `ExplicitKey` is its own key, a
value implementing `metav1.Object` gets the key of its metadata, and every other value
(a `DeletedFinalStateUnknown` among them) yields an error. -/
def MetaNamespaceKeyFunc (obj : Obj Spec) : KeyResult :=
  match obj with
  | .explicitKey k => .key k
  | .ofNetworkQoS (some o) => .key (ObjectName.String o.meta)
  | .ofNamespace (some o) => .key (ObjectName.String o.meta)
  | .ofPod (some o) => .key (ObjectName.String o.meta)
  | .ofNode (some o) => .key (ObjectName.String o.meta)
  | .ofNetworkQoS none => .panic
  | .ofNamespace none => .panic
  | .ofPod none => .panic
  | .ofNode none => .panic
  | .tombstone _ _ => .err errNoMeta
  | .nil => .err errNoMeta
  | .other => .err errNoMeta

/-- The apimachinery function `labels.Equals`: equal sizes, and every entry of the first
set is found with the same value in the second. -/
def labels.Equals (labels1 labels2 : Option StringMap) : Bool :=
  if StringMap.len labels1 != StringMap.len labels2 then false
  else (StringMap.range labels1).all fun kv =>
    match StringMap.get? labels2 kv.1 with
    | none => false
    | some value => value == kv.2

/-! ## The NetworkQoS handlers -/

/-- The handler `onNQOSAdd`. -/
def onNQOSAdd (c : Controller Spec) (obj : Obj Spec) : Option (Controller Spec) :=
  match MetaNamespaceKeyFunc obj with
  | .panic => none
  | .err e => some (c.HandleError (.couldntGetKey obj e))
  | .key key => some (c.nqosQueueAdd key)

/-- The handler `onNQOSUpdate`. -/
def onNQOSUpdate (c : Controller Spec) (oldObj newObj : Obj Spec) : Option (Controller Spec) :=
  match oldObj with
  | .ofNetworkQoS oldNQOS =>
    match newObj with
    | .ofNetworkQoS newNQOS =>
      match oldNQOS, newNQOS with
      | some o, some n =>
        if o.meta.ResourceVersion == n.meta.ResourceVersion ||
            !Time.IsZero n.meta.GetDeletionTimestamp then some c
        else if DeepEqual o.Spec n.Spec then some c
        else
          match MetaNamespaceKeyFunc newObj with
          | .key key => some (c.nqosQueueAdd key)
          | .err _ => some c
          | .panic => none
      | _, _ => none
    | _ => some (c.HandleError (.expectingNetworkQoS newObj))
  | _ => some (c.HandleError (.expectingNetworkQoS oldObj))

/-- The handler `onNQOSDelete`. -/
def onNQOSDelete (c : Controller Spec) (obj : Obj Spec) : Option (Controller Spec) :=
  match MetaNamespaceKeyFunc obj with
  | .panic => none
  | .err e => some (c.HandleError (.couldntGetKey obj e))
  | .key key => some (c.nqosQueueAdd key)

/-! ## The Namespace handlers -/

/-- The handler `onNQOSNamespaceAdd`. -/
def onNQOSNamespaceAdd (c : Controller Spec) (obj : Obj Spec) : Controller Spec :=
  match obj with
  | .ofNamespace ns =>
    match ns with
    | none => c.HandleError .emptyNamespace
    | some ns => c.nqosNamespaceQueueAdd (newEventData none (some ns))
  | _ => c.HandleError (.expectingNamespace obj)

/-- The handler `onNQOSNamespaceUpdate`. -/
def onNQOSNamespaceUpdate (c : Controller Spec) (oldObj newObj : Obj Spec) : Controller Spec :=
  match oldObj with
  | .ofNamespace oldNamespace =>
    match newObj with
    | .ofNamespace newNamespace =>
      match oldNamespace, newNamespace with
      | some o, some n =>
        if o.meta.ResourceVersion == n.meta.ResourceVersion ||
            !Time.IsZero n.meta.GetDeletionTimestamp then c
        else if labels.Equals o.meta.Labels n.meta.Labels then c
        else c.nqosNamespaceQueueAdd (newEventData (some o) (some n))
      | _, _ => c.HandleError .emptyNamespace
    | _ => c.HandleError (.expectingNamespace newObj)
  | _ => c.HandleError (.expectingNamespace oldObj)

/-- The handler `onNQOSNamespaceDelete`. -/
def onNQOSNamespaceDelete (c : Controller Spec) (obj : Obj Spec) : Controller Spec :=
  match obj with
  | .ofNamespace ns =>
    match ns with
    | some ns => c.nqosNamespaceQueueAdd (newEventData (some ns) none)
    | none => c
  | .tombstone _ tombstoneObj =>
    match tombstoneObj with
    | .ofNamespace ns =>
      match ns with
      | some ns => c.nqosNamespaceQueueAdd (newEventData (some ns) none)
      | none => c
    | _ => c.HandleError (.tombstoneNotNamespace tombstoneObj)
  | _ => c.HandleError (.couldntGetObjectFromTombstone obj)

/-! ## The Pod handlers -/

/-- The handler `onNQOSPodAdd`. -/
def onNQOSPodAdd (c : Controller Spec) (obj : Obj Spec) : Controller Spec :=
  match obj with
  | .ofPod pod =>
    match pod with
    | none => c.HandleError .emptyPod
    | some pod => c.nqosPodQueueAdd (newEventData none (some pod))
  | _ => c.HandleError (.expectingPod obj)

/-- The handler `onNQOSPodUpdate`. -/
def onNQOSPodUpdate (u : Helpers) (c : Controller Spec) (oldObj newObj : Obj Spec) :
    Controller Spec :=
  match oldObj with
  | .ofPod oldPod =>
    match newObj with
    | .ofPod newPod =>
      match oldPod, newPod with
      | some o, some n =>
        if o.meta.ResourceVersion == n.meta.ResourceVersion ||
            !Time.IsZero n.meta.GetDeletionTimestamp then c
        else
          let oldPodIPs := (u.GetPodIPsOfNetwork o).1
          let newPodIPs := (u.GetPodIPsOfNetwork n).1
          let oldPodCompleted := u.PodCompleted o
          let newPodCompleted := u.PodCompleted n
          if labels.Equals o.meta.Labels n.meta.Labels &&
              oldPodIPs.length == newPodIPs.length &&
              oldPodCompleted == newPodCompleted then c
          else c.nqosPodQueueAdd (newEventData (some o) (some n))
      | _, _ => c.HandleError .emptyPod
    | _ => c.HandleError (.expectingPod newObj)
  | _ => c.HandleError (.expectingPod oldObj)

/-- The handler `onNQOSPodDelete`. -/
def onNQOSPodDelete (c : Controller Spec) (obj : Obj Spec) : Controller Spec :=
  match obj with
  | .ofPod pod =>
    match pod with
    | some pod => c.nqosPodQueueAdd (newEventData (some pod) none)
    | none => c
  | .tombstone _ tombstoneObj =>
    match tombstoneObj with
    | .ofPod pod =>
      match pod with
      | some pod => c.nqosPodQueueAdd (newEventData (some pod) none)
      | none => c
    | _ => c.HandleError (.tombstoneNotPod tombstoneObj)
  | _ => c.HandleError (.couldntGetObjectFromTombstone obj)

/-! ## The Node handler -/

/-- The handler `onNQOSNodeUpdate`. -/
def onNQOSNodeUpdate (u : Helpers) (c : Controller Spec) (oldObj newObj : Obj Spec) :
    Option (Controller Spec) :=
  match oldObj with
  | .ofNode oldNode =>
    match newObj with
    | .ofNode newNode =>
      match oldNode, newNode with
      | some o, some n =>
        if o.meta.ResourceVersion == n.meta.ResourceVersion ||
            !Time.IsZero n.meta.GetDeletionTimestamp then some c
        else if !u.isNodeInLocalZone o && !u.isNodeInLocalZone n then some c
        else if !u.NodeZoneAnnotationChanged o n then some c
        else
          match MetaNamespaceKeyFunc newObj with
          | .key key => some (c.nqosNodeQueueAdd key)
          | .err _ => some c
          | .panic => none
      | _, _ => none
    | _ => some (c.HandleError (.expectingNode newObj))
  | _ => some (c.HandleError (.expectingNode oldObj))

/-! ## Concrete inputs for evaluating the handlers -/

/-- Metadata with the given namespace, name and resource version, no deletion timestamp
and nil labels and annotations. -/
def mkMeta (ns name rv : String) : ObjectMeta :=
  { Name := name, Namespace := ns, ResourceVersion := rv, DeletionTimestamp := none,
    Labels := none, Annotations := none }

/-- A map with a single entry. -/
def oneEntry (k v : String) : StringMap :=
  { entries := [(k, v)], nodup := by simp }

/-- A controller whose queues have received nothing yet. -/
def emptyController : Controller Spec :=
  { nqosQueue := [], nqosNamespaceQueue := [], nqosPodQueue := [], nqosNodeQueue := [],
    handledErrors := [] }

/-- One instance of the helpers, for evaluating the handlers on concrete inputs: the pod's
status IPs, a pod counted as completed in phase Succeeded or Failed, a node counted as
local when its zone annotation is `zone`, and the zone annotation compared by value. -/
def sampleHelpers (zone : String) : Helpers :=
  { GetPodIPsOfNetwork := fun pod => (pod.PodIPs, none)
    PodCompleted := fun pod => pod.Phase == "Succeeded" || pod.Phase == "Failed"
    isNodeInLocalZone := fun node =>
      StringMap.get node.meta.Annotations "k8s.ovn.org/zone-name" == zone
    NodeZoneAnnotationChanged := fun oldNode newNode =>
      StringMap.get oldNode.meta.Annotations "k8s.ovn.org/zone-name" !=
        StringMap.get newNode.meta.Annotations "k8s.ovn.org/zone-name" }

end handlers


end networkqos

namespace sampledecoder

/-! ## Owner-ID codec and ACL events

The decoder `newACLEvent` and the event type are not among the source files; only the
test `TestCreateOrUpdateACL` is. The definitions of this section follow the
specification (sections 3, 4.1, 6 and 8) and the expectations of that test. -/

/-- Modelled from the spec: the owner-type enum of an owner-tagged network object,
restricted to the owner types the specification and `TestCreateOrUpdateACL` name. The
declaration of the owner types is missing from the sources. -/
inductive OwnerType where
  | NetworkPolicy
  | AdminNetworkPolicy
  | EgressFirewall
  | NetpolNode
deriving DecidableEq

/-- Modelled from the spec: the `nbdb.ACL` row as far as decoding reads it, namely its
action and the owner-type, owner-name and direction tags of its `ExternalIDs` (`none` for
a tag the row does not carry). The row type is missing from the sources. -/
structure ACL where
  Action : String
  OwnerType : OwnerType
  ObjectName : Option String
  PolicyDirection : Option String

/-- Modelled from the spec: the value of `nbdb.ACLActionAllow`, missing from the sources. -/
def ACLActionAllow : String := "allow"

/-- Modelled from the spec: the decoded event with its `Direction` field and the identity
(namespace, name) the codec returns. The event type is missing from the sources. -/
structure ACLEvent where
  Action : String
  Actor : OwnerType
  Name : String
  Namespace : String
  Direction : String
deriving DecidableEq

/-- Splitting a text at every occurrence of a separator, as Go `strings.Split` does for a
one-character separator: the pieces between the separators, in order. -/
def splitAt (sep : Char) : List Char → List (List Char)
  | [] => [[]]
  | c :: cs =>
    if c = sep then [] :: splitAt sep cs
    else
      match splitAt sep cs with
      | [] => [[c]]
      | w :: ws => (c :: w) :: ws

/-- Go `strings.Split(s, ":")`. -/
def splitColon (s : String) : List String :=
  (splitAt ':' s.data).map String.mk

/-- Modelled from the spec: the text of the decode error, "naming the exact offending
string". -/
def formatError (objName : String) : String :=
  "expected format namespace:name for Object Name, but found: " ++ objName

/-- Modelled from the spec: the codec `decode(ownerType, ownerName) -> (namespace, name) |
error` of section 4.1, missing from the sources. A namespaced owner (NetworkPolicy) must
read `<namespace>:<name>`, any other shape is the decode error; an AdminNetworkPolicy
owner name is a bare name; an EgressFirewall owner name is a namespace; the singleton
owner NetpolNode has neither, whatever name the row carries. -/
def decode (ownerType : OwnerType) (ownerName : String) : Except String (String × String) :=
  match ownerType with
  | .NetworkPolicy =>
    match splitColon ownerName with
    | [ns, name] => .ok (ns, name)
    | _ => .error (formatError ownerName)
  | .AdminNetworkPolicy => .ok ("", ownerName)
  | .EgressFirewall => .ok (ownerName, "")
  | .NetpolNode => .ok ("", "")

/-- Modelled from the spec: the direction of the decoded event. An egress firewall acts on
egress and the default node-local-allow policy on ingress whatever tag the row carries;
the other owner types take the direction tag of the row. -/
def direction (o : ACL) : String :=
  match o.OwnerType with
  | .EgressFirewall => "Egress"
  | .NetpolNode => "Ingress"
  | _ => o.PolicyDirection.getD ""

/-- Modelled from the spec: the decoder `newACLEvent` of the observability collaborator,
missing from the sources: it decodes the owner tags with the codec and surfaces the
codec's error unchanged, returning no event. A tag the row does not carry reads as the
empty text, as indexing a Go map does. -/
def newACLEvent (o : ACL) : Except String ACLEvent :=
  match decode o.OwnerType (o.ObjectName.getD "") with
  | .error e => .error e
  | .ok (ns, name) =>
    .ok { Action := o.Action, Actor := o.OwnerType, Name := name, Namespace := ns,
          Direction := direction o }

/-- Modelled from the spec: the sentence `event.String()` renders, missing from the
sources. The wording for an allow action and for each owner type is the one
`TestCreateOrUpdateACL` expects; the wording for the other actions is not fixed by the
specification and is the parameter `otherAction`. -/
def ACLEvent.String (otherAction : String → String) (e : ACLEvent) : String :=
  let action := if e.Action = ACLActionAllow then "Allowed" else otherAction e.Action
  let msg :=
    match e.Actor with
    | .NetworkPolicy =>
      "network policy " ++ e.Name ++ " in namespace " ++ e.Namespace ++ ", direction " ++
        e.Direction
    | .AdminNetworkPolicy => "admin network policy " ++ e.Name ++ ", direction " ++ e.Direction
    | .EgressFirewall => "egress firewall in namespace " ++ e.Namespace
    | .NetpolNode => "default allow from local node policy, direction " ++ e.Direction
  action ++ " by " ++ msg

end sampledecoder

namespace workqueue

/-! ## The per-item fast/slow rate limiter of client-go -/

/-- A `time.Duration`: a number of nanoseconds. -/
abbrev Duration := Int

/-- The constant `time.Second`. -/
def Second : Duration := 1000000000

/-- The client-go type `TypedItemFastSlowRateLimiter[T]`. The map `failures` is given by
its reads: an item without an entry reads as 0. -/
structure TypedItemFastSlowRateLimiter (T : Type) where
  failures : T → Int
  maxFastAttempts : Int
  fastDelay : Duration
  slowDelay : Duration

/-- The constructor `NewTypedItemFastSlowRateLimiter`. -/
def NewTypedItemFastSlowRateLimiter {T : Type} (fastDelay slowDelay : Duration)
    (maxFastAttempts : Int) : TypedItemFastSlowRateLimiter T :=
  { failures := fun _ => 0, maxFastAttempts := maxFastAttempts, fastDelay := fastDelay,
    slowDelay := slowDelay }

/-- The method `When`: count one more failure of the item, then answer the fast delay while
the count is at most `maxFastAttempts` and the slow delay afterwards. Returns the delay and
the limiter after the call. -/
def When {T : Type} [DecidableEq T] (r : TypedItemFastSlowRateLimiter T) (item : T) :
    Duration × TypedItemFastSlowRateLimiter T :=
  let failures := fun x => if x = item then r.failures item + 1 else r.failures x
  let r1 := { r with failures := failures }
  if failures item ≤ r.maxFastAttempts then (r.fastDelay, r1) else (r.slowDelay, r1)

/-- The method `NumRequeues`. -/
def NumRequeues {T : Type} (r : TypedItemFastSlowRateLimiter T) (item : T) : Int :=
  r.failures item

/-- The method `Forget`: delete the item's entry. -/
def Forget {T : Type} [DecidableEq T] (r : TypedItemFastSlowRateLimiter T) (item : T) :
    TypedItemFastSlowRateLimiter T :=
  { r with failures := fun x => if x = item then 0 else r.failures x }

/-- A call a queue makes on its rate limiter: `When` for a rate-limited requeue of an item,
`Forget` once the item has been processed with success. -/
inductive Call (T : Type) where
  | When (item : T)
  | Forget (item : T)
deriving DecidableEq

/-- The limiter after one call. -/
def applyCall {T : Type} [DecidableEq T] (r : TypedItemFastSlowRateLimiter T) :
    Call T → TypedItemFastSlowRateLimiter T
  | .When item => (When r item).2
  | .Forget item => Forget r item

/-- The limiter after a sequence of calls, oldest first. -/
def applyCalls {T : Type} [DecidableEq T] (r : TypedItemFastSlowRateLimiter T)
    (calls : List (Call T)) : TypedItemFastSlowRateLimiter T :=
  calls.foldl applyCall r

end workqueue

namespace networkqos

/-! ## The queues of `NewController` and the start-up sequence of `Run` -/

/-- A Go pointer used as a work-queue item: pointers compare by address. -/
structure Ptr (T : Type) where
  addr : Nat
deriving DecidableEq

/-- The rate limiter `NewController` gives `c.nqosQueue`. -/
def NewController.nqosQueue : workqueue.TypedItemFastSlowRateLimiter String :=
  workqueue.NewTypedItemFastSlowRateLimiter (1 * workqueue.Second) (5 * workqueue.Second) 5

/-- The rate limiter `NewController` gives `c.nqosNamespaceQueue`. -/
def NewController.nqosNamespaceQueue :
    workqueue.TypedItemFastSlowRateLimiter (Ptr (eventData Namespace)) :=
  workqueue.NewTypedItemFastSlowRateLimiter (1 * workqueue.Second) (5 * workqueue.Second) 5

/-- The rate limiter `NewController` gives `c.nqosPodQueue`. -/
def NewController.nqosPodQueue :
    workqueue.TypedItemFastSlowRateLimiter (Ptr (eventData Pod)) :=
  workqueue.NewTypedItemFastSlowRateLimiter (1 * workqueue.Second) (5 * workqueue.Second) 5

/-- The rate limiter `NewController` gives `c.nqosNodeQueue`. -/
def NewController.nqosNodeQueue : workqueue.TypedItemFastSlowRateLimiter String :=
  workqueue.NewTypedItemFastSlowRateLimiter (1 * workqueue.Second) (5 * workqueue.Second) 5

/-- How a call of `util.WaitForInformerCacheSyncWithTimeout` ends: all caches synchronized,
the timeout elapsed, or the stop channel was closed. The function is defined in package
`util`; only its outcome is used here. -/
inductive WaitOutcome where
  | synced
  | timedOut
  | stopped
deriving DecidableEq

/-- The boolean `util.WaitForInformerCacheSyncWithTimeout` returns. -/
def WaitOutcome.ok : WaitOutcome → Bool
  | .synced => true
  | .timedOut => false
  | .stopped => false

/-- What `Run` meets in its environment: the outcome of waiting for the four informer caches,
the outcome of waiting for the net-attach-def cache (`none` when `c.nadSynced` is nil), and
the error `c.repairNetworkQoSes` returns (`none` for nil). -/
structure RunEnv where
  cachesSynced : WaitOutcome
  nadSynced : Option WaitOutcome
  repairErr : Option String

/-- The four work queues, by the name `NewController` gives them. -/
inductive QueueName where
  | networkQoS
  | nqosNamespaces
  | nqosPods
  | nqosNodes
deriving DecidableEq

/-- The steps of `Run` that act outside the function, in program order. `startWorker q` is
one `go func()` statement of the loop for queue `q`; `receiveStop` is the completed receive
`<-stopCh`. -/
inductive RunEvent where
  | WaitForInformerCacheSyncWithTimeout (caches : List String) (outcome : WaitOutcome)
  | HandleError (msg : String)
  | repairNetworkQoSes (err : Option String)
  | startWorker (q : QueueName)
  | receiveStop
  | ShutDown (q : QueueName)
  | teardownMetricsCollector
  | wgWait
deriving DecidableEq

/-- One `for i := 0; i < threadiness; i++` loop of `Run`. -/
def startWorkers (threadiness : Int) (q : QueueName) : List RunEvent :=
  List.replicate threadiness.toNat (.startWorker q)

/-- The part of `Run` from the repair pass to the return, for a stop channel that is
eventually closed. -/
def runSynced (env : RunEnv) (threadiness : Int) : List RunEvent :=
  [.repairNetworkQoSes env.repairErr] ++
    startWorkers threadiness .networkQoS ++
    startWorkers threadiness .nqosNamespaces ++
    startWorkers threadiness .nqosPods ++
    startWorkers threadiness .nqosNodes ++
    [.receiveStop, .ShutDown .networkQoS, .ShutDown .nqosNamespaces, .ShutDown .nqosPods,
     .ShutDown .nqosNodes, .teardownMetricsCollector, .wgWait]

/-- The method `Run`, as the sequence of its steps up to its return. -/
def Run (env : RunEnv) (threadiness : Int) : List RunEvent :=
  let waitCaches := RunEvent.WaitForInformerCacheSyncWithTimeout
    ["nqosCacheSynced", "nqosNamespaceSynced", "nqosPodSynced", "nqosNodeSynced"]
    env.cachesSynced
  if !env.cachesSynced.ok then
    [waitCaches, .HandleError
      "timed out waiting for informer caches (networkqos,namespace,pod,node) to sync"]
  else
    match env.nadSynced with
    | some outcome =>
      let waitNad := RunEvent.WaitForInformerCacheSyncWithTimeout ["nadSynced"] outcome
      if !outcome.ok then
        [waitCaches, waitNad, .HandleError
          "timed out waiting for net-attach-def informer cache to sync"]
      else [waitCaches, waitNad] ++ runSynced env threadiness
    | none => [waitCaches] ++ runSynced env threadiness

end networkqos

namespace healthcheck

/-! ## The health-check server

The server (`NewServer`, `SyncServices`, `SyncEndpoints` and the HTTP handler) is not among
the source files; only its test `TestServer` is. The definitions of this section follow the
specification (sections 6 and 8) and the expectations of that test. -/

/-- The type `types.NamespacedName`. -/
structure NamespacedName where
  Namespace : String
  Name : String
deriving DecidableEq

/-- The test helper `mknsn`. -/
def mknsn (ns name : String) : NamespacedName :=
  { Namespace := ns, Name := name }

/-- The struct `hcPayload` the test decodes the response body into. -/
structure hcPayload where
  Service : NamespacedName
  LocalEndpoints : Int
deriving DecidableEq

/-- Modelled from the spec: a tracked service, with the port its HTTP listener is bound to
and its local-endpoint count (the fields `port` and `endpoints` the test reads). The type
is missing from the sources. -/
structure hcInstance where
  port : Nat
  endpoints : Int
deriving DecidableEq

/-- Modelled from the spec: the state of the health-check server, missing from the sources:
the map `services` of tracked services as a list of entries, and the services whose
listener has been torn down, oldest first. -/
structure server where
  services : List (NamespacedName × hcInstance)
  closed : List (NamespacedName × hcInstance)
deriving DecidableEq

/-- Modelled from the spec: `NewServer` starts with nothing tracked (the test expects 0
services). -/
def NewServer : server :=
  { services := [], closed := [] }

/-- Whether a tracked service is still wanted by the new map: same identity, same port. -/
def stillWanted (newServices : List (NamespacedName × Nat))
    (e : NamespacedName × hcInstance) : Bool :=
  newServices.lookup e.1 == some e.2.port

/-- Start tracking one service of the new map unless its identity is tracked already; a
fresh entry starts at 0 endpoints. -/
def addService (acc : List (NamespacedName × hcInstance)) (e : NamespacedName × Nat) :
    List (NamespacedName × hcInstance) :=
  if (acc.lookup e.1).isSome then acc else acc ++ [(e.1, { port := e.2, endpoints := 0 })]

/-- Modelled from the spec: `SyncServices(desired)` of section 6, missing from the sources.
It fully replaces the tracked services: a tracked service whose identity is absent from the
new map, or bound to another port there, is removed and its listener torn down; then every
identity of the new map that is not tracked is added as a fresh entry. The new map is
given by its entries (none for a nil map). -/
def SyncServices (hcs : server) (newServices : List (NamespacedName × Nat)) :
    Except String server :=
  let keep := hcs.services.filter (stillWanted newServices)
  let drop := hcs.services.filter (fun e => !stillWanted newServices e)
  .ok { services := newServices.foldl addService keep, closed := hcs.closed ++ drop }

/-- Modelled from the spec: `SyncEndpoints(counts)`, missing from the sources. Following
section 8 ("SyncEndpoints for an unknown identity is a no-op") and `TestServer`, which
expects a service missing from the new counts to stay tracked with 0 endpoints, it gives
every tracked service the count of the new map, or 0 when the map has none, and neither
adds nor removes a service. The new map is given by its entries (none for a nil map). -/
def SyncEndpoints (hcs : server) (newEndpoints : List (NamespacedName × Int)) :
    Except String server :=
  .ok { hcs with
    services := hcs.services.map fun e =>
      (e.1, { e.2 with endpoints := (newEndpoints.lookup e.1).getD 0 }) }

/-- The constant `http.StatusOK`. -/
def StatusOK : Nat := 200

/-- The constant `http.StatusServiceUnavailable`. -/
def StatusServiceUnavailable : Nat := 503

/-- Modelled from the spec: the HTTP handler of a service, missing from the sources: for a
tracked service, status 200 when its local-endpoint count is above 0 and 503 otherwise, with
a body naming the service and the count; `none` when the service is not tracked. -/
def ServeHTTP (hcs : server) (name : NamespacedName) : Option (Nat × hcPayload) :=
  match hcs.services.lookup name with
  | none => none
  | some svc =>
    let body : hcPayload := { Service := name, LocalEndpoints := svc.endpoints }
    if svc.endpoints > 0 then some (StatusOK, body) else some (StatusServiceUnavailable, body)

end healthcheck

namespace networkqos

/-! ## Retries, the return of `Run`, and the accessors of `eventData` -/

/-- The constant `maxRetries`. -/
def maxRetries : Int := 15

/-- The constant `time.Millisecond`. -/
def Millisecond : workqueue.Duration := 1000000

/-- The delay the comment on `maxRetries` gives for the n-th successive queuing of an
object: `5ms*2^(n-1)`. -/
def commentDelay (n : Nat) : workqueue.Duration := 5 * Millisecond * 2 ^ (n - 1)

/-- Whether a call of `Run` returns: the statement `<-stopCh` completes only once the stop
channel is closed, and every other step of `Run` completes. `stopChClosed` tells whether the
stop channel is ever closed. -/
def RunReturns (env : RunEnv) (threadiness : Int) (stopChClosed : Bool) : Bool :=
  if RunEvent.receiveStop ∈ Run env threadiness then stopChClosed else true

/-- Whether the outcomes of the waits agree with the stop channel: a wait can only end
because the stop channel was closed if it is closed. -/
def RunEnv.agrees (env : RunEnv) (stopChClosed : Bool) : Bool :=
  (env.cachesSynced != .stopped || stopChClosed) &&
    (env.nadSynced != some .stopped || stopChClosed)

/-- The methods `GetName` and `GetNamespace` of `metav1.Object`, which bounds the type
parameter of `eventData`. -/
class Object (T : Type) where
  GetName : T → String
  GetNamespace : T → String

instance : Object Namespace where
  GetName := fun o => o.meta.Name
  GetNamespace := fun o => o.meta.Namespace

instance : Object Pod where
  GetName := fun o => o.meta.Name
  GetNamespace := fun o => o.meta.Namespace

/-- The method `eventData.name`. For the pointer types the controller instantiates `T` with,
`reflect.ValueOf(x).IsNil()` tells whether the pointer `x` is nil. -/
def eventData.name {T : Type} [Object T] (e : eventData T) : String :=
  match e.old with
  | some o => Object.GetName o
  | none =>
    match e.new with
    | some n => Object.GetName n
    | none => ""

/-- The method `eventData.namespace`. -/
def eventData.namespace {T : Type} [Object T] (e : eventData T) : String :=
  match e.old with
  | some o => Object.GetNamespace o
  | none =>
    match e.new with
    | some n => Object.GetNamespace n
    | none => ""

end networkqos

namespace ovsdb

/-! ## Generated row types: copy and equality helpers

The generator `libovsdb.modelgen` emits one copy function and one equality function per
column, with the same body for every column of the same Go type. The bodies are translated
once here and named per column below. A Go slice `[]string` is an `Option (List String)`
(`none` is the nil slice). -/

/-- Go `make([]string, n)`. -/
def make (n : Nat) : List String := List.replicate n ""

/-- Go `copy(dst, src)`: the first `min(len(dst), len(src))` elements of `dst` are replaced
by those of `src`. -/
def copy (dst src : List String) : List String :=
  src.take dst.length ++ dst.drop src.length

/-- The body of `copyPortGroupACLs` and `copyPortGroupPorts`. -/
def copySlice (a : Option (List String)) : Option (List String) :=
  match a with
  | none => none
  | some a => some (copy (make a.length) a)

/-- The loop `for i, v := range a { if b[i] != v { return false } }`, from index `i` on; it
is only entered with `len(a) == len(b)`, so `b[i]` is in range. -/
def sliceLoop (b : List String) : Nat → List String → Bool
  | _, [] => true
  | i, v :: rest => if b[i]? != some v then false else sliceLoop b (i + 1) rest

/-- The body of `equalPortGroupACLs` and `equalPortGroupPorts`. -/
def equalSlice (a b : Option (List String)) : Bool :=
  if a.isNone != b.isNone then false
  else if (a.getD []).length != (b.getD []).length then false
  else sliceLoop (b.getD []) 0 (a.getD [])

/-- Go `make(map[string]string, n)`. -/
def makeMap : networkqos.StringMap :=
  { entries := [], nodup := by simp }

/-- Go `b[k] = v`. -/
def mapSet (b : networkqos.StringMap) (k v : String) : networkqos.StringMap :=
  { entries := b.entries.filter (fun e => e.1 != k) ++ [(k, v)]
    nodup := by
      rw [List.map_append]
      refine List.Nodup.append
        (List.Nodup.sublist ((List.filter_sublist b.entries).map Prod.fst) b.nodup)
        (by simp) ?_
      intro x hx1 hx2
      simp only [List.map_cons, List.map_nil, List.mem_singleton] at hx2
      obtain ⟨e, he, rfl⟩ := List.mem_map.1 hx1
      have := (List.mem_filter.1 he).2
      simp [hx2] at this }

/-- The body of the copy functions of the `map[string]string` columns. -/
def copyMap (a : Option networkqos.StringMap) : Option networkqos.StringMap :=
  match a with
  | none => none
  | some a => some (a.entries.foldl (fun b kv => mapSet b kv.1 kv.2) makeMap)

/-- The body of the equality functions of the `map[string]string` columns. -/
def equalMap (a b : Option networkqos.StringMap) : Bool :=
  if a.isNone != b.isNone then false
  else if networkqos.StringMap.len a != networkqos.StringMap.len b then false
  else (networkqos.StringMap.range a).all fun kv =>
    match networkqos.StringMap.get? b kv.1 with
    | some w => kv.2 == w
    | none => false

/-- The body of the copy functions of the optional columns (`*string`, `*int`). -/
def copyPtr {T : Type} (a : Option T) : Option T :=
  match a with
  | none => none
  | some b => some b

/-- The body of the equality functions of the optional columns: false when exactly one
side is nil, true for the same pointer, else the comparison of the values. Two equal
pointers hold equal values, so the result is that of comparing the values. -/
def equalPtr {T : Type} [DecidableEq T] (a b : Option T) : Bool :=
  match a, b with
  | none, none => true
  | some x, some y => x == y
  | _, _ => false

end ovsdb

namespace nbdb

/-! ## The row type `PortGroup` -/

/-- The struct `PortGroup`. -/
structure PortGroup where
  UUID : String
  ACLs : Option (List String)
  ExternalIDs : Option networkqos.StringMap
  Name : String
  Ports : Option (List String)

/-- The function `copyPortGroupACLs`. -/
def copyPortGroupACLs (a : Option (List String)) : Option (List String) := ovsdb.copySlice a

/-- The function `equalPortGroupACLs`. -/
def equalPortGroupACLs (a b : Option (List String)) : Bool := ovsdb.equalSlice a b

/-- The function `copyPortGroupExternalIDs`. -/
def copyPortGroupExternalIDs (a : Option networkqos.StringMap) : Option networkqos.StringMap :=
  ovsdb.copyMap a

/-- The function `equalPortGroupExternalIDs`. -/
def equalPortGroupExternalIDs (a b : Option networkqos.StringMap) : Bool := ovsdb.equalMap a b

/-- The function `copyPortGroupPorts`. -/
def copyPortGroupPorts (a : Option (List String)) : Option (List String) := ovsdb.copySlice a

/-- The function `equalPortGroupPorts`. -/
def equalPortGroupPorts (a b : Option (List String)) : Bool := ovsdb.equalSlice a b

/-- The methods `DeepCopyInto` and `DeepCopy`: the copy `b` of `a`. -/
def PortGroup.DeepCopy (a : PortGroup) : PortGroup :=
  { a with
    ACLs := copyPortGroupACLs a.ACLs
    ExternalIDs := copyPortGroupExternalIDs a.ExternalIDs
    Ports := copyPortGroupPorts a.Ports }

/-- The method `Equals`. -/
def PortGroup.Equals (a b : PortGroup) : Bool :=
  a.UUID == b.UUID &&
    equalPortGroupACLs a.ACLs b.ACLs &&
    equalPortGroupExternalIDs a.ExternalIDs b.ExternalIDs &&
    a.Name == b.Name &&
    equalPortGroupPorts a.Ports b.Ports

end nbdb

namespace vswitchd

/-! ## The row type `Manager` -/

/-- The struct `Manager`. -/
structure Manager where
  UUID : String
  ConnectionMode : Option String
  ExternalIDs : Option networkqos.StringMap
  InactivityProbe : Option Int
  IsConnected : Bool
  MaxBackoff : Option Int
  OtherConfig : Option networkqos.StringMap
  Status : Option networkqos.StringMap
  Target : String

/-- The function `copyManagerConnectionMode`. -/
def copyManagerConnectionMode (a : Option String) : Option String := ovsdb.copyPtr a

/-- The function `equalManagerConnectionMode`. -/
def equalManagerConnectionMode (a b : Option String) : Bool := ovsdb.equalPtr a b

/-- The function `copyManagerExternalIDs`. -/
def copyManagerExternalIDs (a : Option networkqos.StringMap) : Option networkqos.StringMap :=
  ovsdb.copyMap a

/-- The function `equalManagerExternalIDs`. -/
def equalManagerExternalIDs (a b : Option networkqos.StringMap) : Bool := ovsdb.equalMap a b

/-- The function `copyManagerInactivityProbe`. -/
def copyManagerInactivityProbe (a : Option Int) : Option Int := ovsdb.copyPtr a

/-- The function `equalManagerInactivityProbe`. -/
def equalManagerInactivityProbe (a b : Option Int) : Bool := ovsdb.equalPtr a b

/-- The function `copyManagerMaxBackoff`. -/
def copyManagerMaxBackoff (a : Option Int) : Option Int := ovsdb.copyPtr a

/-- The function `equalManagerMaxBackoff`. -/
def equalManagerMaxBackoff (a b : Option Int) : Bool := ovsdb.equalPtr a b

/-- The function `copyManagerOtherConfig`. -/
def copyManagerOtherConfig (a : Option networkqos.StringMap) : Option networkqos.StringMap :=
  ovsdb.copyMap a

/-- The function `equalManagerOtherConfig`. -/
def equalManagerOtherConfig (a b : Option networkqos.StringMap) : Bool := ovsdb.equalMap a b

/-- The function `copyManagerStatus`. -/
def copyManagerStatus (a : Option networkqos.StringMap) : Option networkqos.StringMap :=
  ovsdb.copyMap a

/-- The function `equalManagerStatus`. -/
def equalManagerStatus (a b : Option networkqos.StringMap) : Bool := ovsdb.equalMap a b

/-- The methods `DeepCopyInto` and `DeepCopy`: the copy `b` of `a`. -/
def Manager.DeepCopy (a : Manager) : Manager :=
  { a with
    ConnectionMode := copyManagerConnectionMode a.ConnectionMode
    ExternalIDs := copyManagerExternalIDs a.ExternalIDs
    InactivityProbe := copyManagerInactivityProbe a.InactivityProbe
    MaxBackoff := copyManagerMaxBackoff a.MaxBackoff
    OtherConfig := copyManagerOtherConfig a.OtherConfig
    Status := copyManagerStatus a.Status }

/-- The method `Equals`. -/
def Manager.Equals (a b : Manager) : Bool :=
  a.UUID == b.UUID &&
    equalManagerConnectionMode a.ConnectionMode b.ConnectionMode &&
    equalManagerExternalIDs a.ExternalIDs b.ExternalIDs &&
    equalManagerInactivityProbe a.InactivityProbe b.InactivityProbe &&
    a.IsConnected == b.IsConnected &&
    equalManagerMaxBackoff a.MaxBackoff b.MaxBackoff &&
    equalManagerOtherConfig a.OtherConfig b.OtherConfig &&
    equalManagerStatus a.Status b.Status &&
    a.Target == b.Target

end vswitchd

namespace netip

/-! ## The address type of Go `net/netip` -/

/-- The field `z` of `netip.Addr`: `z0` for the zero `Addr`, `z4` for an IPv4 address,
`z6noz` for an IPv6 address without zone, `z6 zone` for an IPv6 address with a zone. -/
inductive Zone where
  | z0
  | z4
  | z6noz
  | z6 (zone : String)
deriving DecidableEq

/-- The type `netip.Addr`: the 128-bit value `addr` (an IPv4 address `v` is held as
`0xffff00000000 + v`) and the field `z`. -/
structure Addr where
  addr : Nat
  z : Zone
deriving DecidableEq

/-- The zero value `Addr{}`. -/
def Addr.zero : Addr := { addr := 0, z := .z0 }

/-- The method `Addr.IsValid`. -/
def Addr.IsValid (ip : Addr) : Bool := ip.z != .z0

/-- The method `Addr.Is4`. -/
def Addr.Is4 (ip : Addr) : Bool := ip.z == .z4

/-- The method `Addr.BitLen`. -/
def Addr.BitLen (ip : Addr) : Int :=
  match ip.z with
  | .z0 => 0
  | .z4 => 32
  | _ => 128

/-- The method `Addr.Next`: add one to the 128-bit value; an IPv4 address whose low 32 bits
wrapped to 0, and an IPv6 address that wrapped to 0, give the zero `Addr`. -/
def Addr.Next (ip : Addr) : Addr :=
  let ip1 : Addr := { ip with addr := (ip.addr + 1) % 2 ^ 128 }
  if ip1.Is4 then
    if ip1.addr % 2 ^ 32 == 0 then Addr.zero else ip1
  else
    if ip1.addr == 0 then Addr.zero else ip1

/-- The method `Addr.withoutZone`. -/
def Addr.withoutZone (ip : Addr) : Addr :=
  match ip.z with
  | .z6 _ => { ip with z := .z6noz }
  | _ => ip

/-- The type `netip.Prefix`, with `bits = -1` for an invalid prefix. -/
structure Prefix where
  ip : Addr
  bits : Int
deriving DecidableEq

/-- The method `Prefix.Addr`. -/
def Prefix.Addr (p : Prefix) : Addr := p.ip

/-- The method `Prefix.Bits`. -/
def Prefix.Bits (p : Prefix) : Int := p.bits

/-- The function `netip.PrefixFrom`. -/
def PrefixFrom (ip : Addr) (bits : Int) : Prefix :=
  { ip := ip.withoutZone
    bits := if ip.z != .z0 && decide (0 ≤ bits) && decide (bits ≤ ip.BitLen) then bits
            else -1 }

/-- What `netip.ParsePrefix` guarantees of a prefix it returns: an IPv4 or IPv6 address
without zone, held in 128 bits (an IPv4 address in the range of `::ffff:0.0.0.0/96`), and a
prefix length within the address length. -/
def Prefix.parsed (p : Prefix) : Bool :=
  (p.ip.z == .z4 || p.ip.z == .z6noz) &&
    decide (p.ip.addr < 2 ^ 128) &&
    (p.ip.z != .z4 || decide (p.ip.addr / 2 ^ 32 = 0xffff)) &&
    decide (0 ≤ p.bits) && decide (p.bits ≤ p.ip.BitLen)

/-- The last address of the family of `ip`, as a 128-bit value. -/
def Addr.last (ip : Addr) : Nat :=
  if ip.z = .z4 then 0xffffffffffff else 2 ^ 128 - 1

/-- The two functions of `net/netip` between text and prefixes, taken as parameters:
`ParsePrefix` (the prefix, or the text of the error) and `Prefix.String`. -/
structure Text where
  ParsePrefix : String → Except String Prefix
  String : Prefix → String

end netip

namespace e2e

/-! ## The test helper `computeIPWithOffset` -/

/-- The loop `for i := 0; i < increment; i++` of `computeIPWithOffset`, with `k` iterations
left: the address after the loop, or the error, and the number of iterations run. -/
def nextLoop : Nat → netip.Addr → Except String netip.Addr × Nat
  | 0, ip => (.ok ip, 0)
  | k + 1, ip =>
    let ip1 := ip.Next
    if !ip1.IsValid then (.error "overflow: IP address exceeds bounds", 1)
    else ((nextLoop k ip1).1, (nextLoop k ip1).2 + 1)

/-- The function `computeIPWithOffset`. -/
def computeIPWithOffset (lib : netip.Text) (baseAddr : String) (increment : Int) :
    Except String String :=
  match lib.ParsePrefix baseAddr with
  | .error err => .error ("Failed to parse CIDR " ++ err)
  | .ok addr =>
    match (nextLoop increment.toNat addr.Addr).1 with
    | .error err => .error err
    | .ok ip => .ok (lib.String (netip.PrefixFrom ip addr.Bits))

/-! ### Text functions for IPv4, for evaluating on concrete inputs -/

/-- The value of a decimal numeral, `none` for an empty text or a character that is no
digit. -/
def parseDecimal (cs : List Char) : Option Nat :=
  if cs.isEmpty then none
  else cs.foldl (fun acc c =>
    match acc with
    | none => none
    | some n => if c.isDigit then some (10 * n + (c.toNat - 48)) else none) (some 0)

/-- The decimal numeral of a number below 1000. -/
def showDecimal (n : Nat) : List Char :=
  let d (k : Nat) : Char := Char.ofNat (48 + k % 10)
  if n < 10 then [d n] else if n < 100 then [d (n / 10), d n] else [d (n / 100), d (n / 10), d n]

/-- One instance of the text functions, covering dotted-quad IPv4 prefixes `a.b.c.d/len`
only: every other text is rejected. -/
def ipv4Text : netip.Text :=
  { ParsePrefix := fun s =>
      match sampledecoder.splitAt '/' s.data with
      | [ip, bits] =>
        match (sampledecoder.splitAt '.' ip).map parseDecimal, parseDecimal bits with
        | [some a, some b, some c, some d], some len =>
          if a < 256 && b < 256 && c < 256 && d < 256 && len ≤ 32 then
            .ok { ip := { addr := 0xffff00000000 + (a * 16777216 + b * 65536 + c * 256 + d),
                          z := .z4 },
                  bits := len }
          else .error ("netip.ParsePrefix(" ++ s ++ "): field out of range")
        | _, _ => .error ("netip.ParsePrefix(" ++ s ++ "): unable to parse IP")
      | _ => .error ("netip.ParsePrefix(" ++ s ++ "): no '/'")
    String := fun p =>
      let v := p.ip.addr % 4294967296
      String.mk (showDecimal (v / 16777216) ++ ['.'] ++ showDecimal (v / 65536 % 256) ++ ['.'] ++
        showDecimal (v / 256 % 256) ++ ['.'] ++ showDecimal (v % 256) ++ ['/'] ++
        showDecimal p.bits.toNat) }

end e2e

namespace networkqos

/-! ## Lemmas on Go maps and `labels.Equals` -/

theorem lookup_eq_some_iff_mem (l : List (String × String)) (h : (l.map Prod.fst).Nodup)
    (k v : String) : l.lookup k = some v ↔ (k, v) ∈ l := by
  induction l with
  | nil => simp
  | cons hd tl ih =>
    obtain ⟨a, b⟩ := hd
    simp only [List.map_cons, List.nodup_cons] at h
    by_cases hk : k = a
    · subst hk
      have hnot : ∀ w, (k, w) ∉ tl := fun w hw => h.1 (List.mem_map.2 ⟨(k, w), hw, rfl⟩)
      simp only [List.lookup, beq_self_eq_true, Option.some.injEq, List.mem_cons,
        Prod.mk.injEq, true_and]
      constructor
      · intro e; exact Or.inl e.symm
      · rintro (e | e)
        · exact e.symm
        · exact absurd e (hnot v)
    · have hne : (k == a) = false := by simpa using hk
      simp only [List.lookup, hne, List.mem_cons, Prod.mk.injEq, hk, false_and, false_or]
      exact ih h.2

theorem nodup_of_nodup_keys (l : List (String × String)) (h : (l.map Prod.fst).Nodup) :
    l.Nodup :=
  List.Nodup.of_map _ h

theorem entries_check_iff_lookup_eq (l1 l2 : List (String × String))
    (h1 : (l1.map Prod.fst).Nodup) (h2 : (l2.map Prod.fst).Nodup) :
    (l1.length = l2.length ∧ ∀ kv ∈ l1, l2.lookup kv.1 = some kv.2) ↔
      ∀ k, l1.lookup k = l2.lookup k := by
  constructor
  · rintro ⟨hlen, hall⟩ k
    have hsub : l1 ⊆ l2 := fun kv hkv =>
      (lookup_eq_some_iff_mem l2 h2 kv.1 kv.2).1 (hall kv hkv)
    have hperm : l1.Perm l2 :=
      (List.subperm_of_subset (nodup_of_nodup_keys l1 h1) hsub).perm_of_length_le (le_of_eq hlen.symm)
    cases hk : l2.lookup k with
    | none =>
      cases hk1 : l1.lookup k with
      | none => rfl
      | some v =>
        have hm := hsub ((lookup_eq_some_iff_mem l1 h1 k v).1 hk1)
        rw [(lookup_eq_some_iff_mem l2 h2 k v).2 hm] at hk
        exact absurd hk (by simp)
    | some v =>
      have hm := hperm.symm.subset ((lookup_eq_some_iff_mem l2 h2 k v).1 hk)
      exact (lookup_eq_some_iff_mem l1 h1 k v).2 hm
  · intro h
    have hsub12 : l1 ⊆ l2 := fun kv hkv =>
      (lookup_eq_some_iff_mem l2 h2 kv.1 kv.2).1
        ((h kv.1).symm.trans ((lookup_eq_some_iff_mem l1 h1 kv.1 kv.2).2 hkv))
    have hsub21 : l2 ⊆ l1 := fun kv hkv =>
      (lookup_eq_some_iff_mem l1 h1 kv.1 kv.2).1
        ((h kv.1).trans ((lookup_eq_some_iff_mem l2 h2 kv.1 kv.2).2 hkv))
    refine ⟨le_antisymm ?_ ?_, ?_⟩
    · exact (List.subperm_of_subset (nodup_of_nodup_keys l1 h1) hsub12).length_le
    · exact (List.subperm_of_subset (nodup_of_nodup_keys l2 h2) hsub21).length_le
    · intro kv hkv
      exact (lookup_eq_some_iff_mem l2 h2 kv.1 kv.2).2 (hsub12 hkv)

theorem range_nodup_keys (m : Option StringMap) : ((StringMap.range m).map Prod.fst).Nodup := by
  cases m with
  | none => simp [StringMap.range]
  | some m => exact m.nodup

theorem len_eq_range_length (m : Option StringMap) :
    StringMap.len m = (StringMap.range m).length := by
  cases m <;> rfl

theorem get?_eq_range_lookup (m : Option StringMap) (k : String) :
    StringMap.get? m k = (StringMap.range m).lookup k := by
  cases m <;> rfl

/-- The function `labels.Equals` decides equality of two label sets as key/value maps; a nil
map and an empty map both hold no key. -/
theorem labels_Equals_iff (a b : Option StringMap) :
    labels.Equals a b = true ↔ ∀ k, StringMap.get? a k = StringMap.get? b k := by
  have key := entries_check_iff_lookup_eq (StringMap.range a) (StringMap.range b)
    (range_nodup_keys a) (range_nodup_keys b)
  simp only [← get?_eq_range_lookup, ← len_eq_range_length] at key
  rw [← key]
  unfold labels.Equals
  by_cases hlen : StringMap.len a = StringMap.len b
  · simp only [hlen, bne_self_eq_false, Bool.false_eq_true, ↓reduceIte, List.all_eq_true,
      true_and]
    constructor
    · intro h kv hkv
      have := h kv hkv
      cases hg : StringMap.get? b kv.1 with
      | none => simp [hg] at this
      | some w => simpa [hg] using this
    · intro h kv hkv
      simp [h kv hkv]
  · simp [hlen]

theorem labels_Equals_eq_false_iff (a b : Option StringMap) :
    labels.Equals a b = false ↔ ∃ k, StringMap.get? a k ≠ StringMap.get? b k := by
  rw [← Bool.not_eq_true, labels_Equals_iff]
  push_neg
  rfl

theorem ObjectName_String_of_namespace (m : ObjectMeta) (h : m.Namespace ≠ "") :
    ObjectName.String m = m.Namespace ++ "/" ++ m.Name := by
  have hpos : m.Namespace.length > 0 := by
    rcases Nat.eq_zero_or_pos m.Namespace.length with h0 | h0
    · exact absurd (String.ext (List.length_eq_zero.1 h0)) h
    · exact h0
  simp [ObjectName.String, hpos]

theorem ObjectName_String_of_no_namespace (m : ObjectMeta) (h : m.Namespace = "") :
    ObjectName.String m = m.Name := by
  simp [ObjectName.String, h]

/-! ## The event filters -/

section filters

variable {Spec : Type}

/-- C1: on an update of a NetworkQoS, `onNQOSUpdate` adds a key to the policy queue exactly
when the resource versions differ, the new object has no deletion timestamp and the two
`Spec` values are not deeply equal; otherwise the controller is left as it was. The key is
the one `cache.MetaNamespaceKeyFunc` gives the new object, which for an object with a
namespace (NetworkQoS is a namespaced resource) is `namespace/name`. In particular an
update with an unchanged `Spec` adds nothing. -/
theorem onNQOSUpdate_enqueues_iff [DecidableEq Spec] (c : Controller Spec) (o n : NetworkQoS Spec) :
    onNQOSUpdate c (.ofNetworkQoS (some o)) (.ofNetworkQoS (some n)) =
        some (if o.meta.ResourceVersion ≠ n.meta.ResourceVersion ∧
                Time.IsZero n.meta.DeletionTimestamp = true ∧ o.Spec ≠ n.Spec
              then { c with nqosQueue := c.nqosQueue ++ [ObjectName.String n.meta] }
              else c) ∧
      (n.meta.Namespace ≠ "" →
        ObjectName.String n.meta = n.meta.Namespace ++ "/" ++ n.meta.Name) ∧
      (o.Spec = n.Spec →
        onNQOSUpdate c (.ofNetworkQoS (some o)) (.ofNetworkQoS (some n)) = some c) := by
  refine ⟨?_, ObjectName_String_of_namespace n.meta, ?_⟩
  · by_cases hrv : o.meta.ResourceVersion = n.meta.ResourceVersion
    · simp [onNQOSUpdate, hrv]
    · by_cases hdel : Time.IsZero n.meta.DeletionTimestamp = true
      · by_cases hspec : o.Spec = n.Spec
        · simp [onNQOSUpdate, hrv, hdel, hspec, DeepEqual, ObjectMeta.GetDeletionTimestamp]
        · simp [onNQOSUpdate, hrv, hdel, hspec, DeepEqual, ObjectMeta.GetDeletionTimestamp,
            MetaNamespaceKeyFunc, Controller.nqosQueueAdd]
      · simp [onNQOSUpdate, hrv, hdel, ObjectMeta.GetDeletionTimestamp]
  · intro hspec
    by_cases hrv : o.meta.ResourceVersion = n.meta.ResourceVersion
    · simp [onNQOSUpdate, hrv]
    · by_cases hdel : Time.IsZero n.meta.DeletionTimestamp = true
      · simp [onNQOSUpdate, hrv, hdel, hspec, DeepEqual, ObjectMeta.GetDeletionTimestamp]
      · simp [onNQOSUpdate, hrv, hdel, ObjectMeta.GetDeletionTimestamp]

/-- C2: an update whose new object carries a non-zero deletion timestamp, or whose old and
new object carry the same resource version, leaves the controller (all four queues
included) unchanged, for each of the four update handlers. -/
theorem update_handlers_skip_resync_and_deleting [DecidableEq Spec] (u : Helpers) (c : Controller Spec) :
    (∀ o n : NetworkQoS Spec,
        o.meta.ResourceVersion = n.meta.ResourceVersion ∨
          Time.IsZero n.meta.DeletionTimestamp = false →
        onNQOSUpdate c (.ofNetworkQoS (some o)) (.ofNetworkQoS (some n)) = some c) ∧
      (∀ o n : Namespace,
        o.meta.ResourceVersion = n.meta.ResourceVersion ∨
          Time.IsZero n.meta.DeletionTimestamp = false →
        onNQOSNamespaceUpdate c (.ofNamespace (some o)) (.ofNamespace (some n)) = c) ∧
      (∀ o n : Pod,
        o.meta.ResourceVersion = n.meta.ResourceVersion ∨
          Time.IsZero n.meta.DeletionTimestamp = false →
        onNQOSPodUpdate u c (.ofPod (some o)) (.ofPod (some n)) = c) ∧
      (∀ o n : Node,
        o.meta.ResourceVersion = n.meta.ResourceVersion ∨
          Time.IsZero n.meta.DeletionTimestamp = false →
        onNQOSNodeUpdate u c (.ofNode (some o)) (.ofNode (some n)) = some c) := by
  refine ⟨?_, ?_, ?_, ?_⟩ <;> intro o n h
  · rcases h with h | h <;>
      simp [onNQOSUpdate, h, ObjectMeta.GetDeletionTimestamp]
  · rcases h with h | h <;>
      simp [onNQOSNamespaceUpdate, h, ObjectMeta.GetDeletionTimestamp]
  · rcases h with h | h <;>
      simp [onNQOSPodUpdate, h, ObjectMeta.GetDeletionTimestamp]
  · rcases h with h | h <;>
      simp [onNQOSNodeUpdate, h, ObjectMeta.GetDeletionTimestamp]

/-- C3: for a pod update with differing resource versions and no deletion timestamp on the
new pod, `onNQOSPodUpdate` adds the pair (old, new) to the pod queue if the label sets
differ as key/value maps, or the numbers of IPs on the controller's network differ, or the
completed flags differ; and it leaves the controller unchanged if none of the three
holds. -/
theorem onNQOSPodUpdate_enqueues_iff (u : Helpers) (c : Controller Spec) (o n : Pod)
    (hrv : o.meta.ResourceVersion ≠ n.meta.ResourceVersion)
    (hdel : Time.IsZero n.meta.DeletionTimestamp = true) :
    (((∃ k, StringMap.get? o.meta.Labels k ≠ StringMap.get? n.meta.Labels k) ∨
          (u.GetPodIPsOfNetwork o).1.length ≠ (u.GetPodIPsOfNetwork n).1.length ∨
          u.PodCompleted o ≠ u.PodCompleted n) →
        onNQOSPodUpdate u c (.ofPod (some o)) (.ofPod (some n)) =
          { c with nqosPodQueue := c.nqosPodQueue ++ [{ old := some o, new := some n }] }) ∧
      (¬ ((∃ k, StringMap.get? o.meta.Labels k ≠ StringMap.get? n.meta.Labels k) ∨
          (u.GetPodIPsOfNetwork o).1.length ≠ (u.GetPodIPsOfNetwork n).1.length ∨
          u.PodCompleted o ≠ u.PodCompleted n) →
        onNQOSPodUpdate u c (.ofPod (some o)) (.ofPod (some n)) = c) := by
  rw [← labels_Equals_eq_false_iff]
  constructor
  · intro h
    have hcond : (labels.Equals o.meta.Labels n.meta.Labels &&
        (u.GetPodIPsOfNetwork o).1.length == (u.GetPodIPsOfNetwork n).1.length &&
        u.PodCompleted o == u.PodCompleted n) = false := by
      rcases h with h | h | h
      · simp [h]
      · simp [h]
      · simp [h]
    simp only [onNQOSPodUpdate, ObjectMeta.GetDeletionTimestamp, hdel, hcond]
    simp [hrv, Controller.nqosPodQueueAdd, newEventData]
  · intro h
    push_neg at h
    obtain ⟨h1, h2, h3⟩ := h
    have h1' : labels.Equals o.meta.Labels n.meta.Labels = true := by simpa using h1
    simp [onNQOSPodUpdate, ObjectMeta.GetDeletionTimestamp, hdel, hrv, h1', h2, h3]

/-- C4: for a namespace update with differing resource versions and no deletion timestamp
on the new namespace, `onNQOSNamespaceUpdate` adds the pair (old, new) to the namespace
queue if the label sets differ as key/value maps (some key is bound differently, so a nil
and an empty map are equal), and leaves the controller unchanged if they agree. -/
theorem onNQOSNamespaceUpdate_enqueues_iff (c : Controller Spec) (o n : Namespace)
    (hrv : o.meta.ResourceVersion ≠ n.meta.ResourceVersion)
    (hdel : Time.IsZero n.meta.DeletionTimestamp = true) :
    ((∃ k, StringMap.get? o.meta.Labels k ≠ StringMap.get? n.meta.Labels k) →
        onNQOSNamespaceUpdate c (.ofNamespace (some o)) (.ofNamespace (some n)) =
          { c with nqosNamespaceQueue :=
              c.nqosNamespaceQueue ++ [{ old := some o, new := some n }] }) ∧
      ((∀ k, StringMap.get? o.meta.Labels k = StringMap.get? n.meta.Labels k) →
        onNQOSNamespaceUpdate c (.ofNamespace (some o)) (.ofNamespace (some n)) = c) := by
  rw [← labels_Equals_eq_false_iff, ← labels_Equals_iff]
  constructor
  · intro h
    simp [onNQOSNamespaceUpdate, ObjectMeta.GetDeletionTimestamp, hdel, hrv, h,
      Controller.nqosNamespaceQueueAdd, newEventData]
  · intro h
    simp [onNQOSNamespaceUpdate, ObjectMeta.GetDeletionTimestamp, hdel, hrv, h]

/-- C5: for a node update with differing resource versions and no deletion timestamp on
the new node, `onNQOSNodeUpdate` adds the node's key to the node queue exactly when
`isNodeInLocalZone` holds for the old or for the new node and the zone annotation changed;
otherwise the controller is left as it was. The key is the one
`cache.MetaNamespaceKeyFunc` gives the new node, which for an object without a namespace
(Node is a cluster-scoped resource) is its name. -/
theorem onNQOSNodeUpdate_enqueues_iff (u : Helpers) (c : Controller Spec) (o n : Node)
    (hrv : o.meta.ResourceVersion ≠ n.meta.ResourceVersion)
    (hdel : Time.IsZero n.meta.DeletionTimestamp = true) :
    onNQOSNodeUpdate u c (.ofNode (some o)) (.ofNode (some n)) =
        some (if (u.isNodeInLocalZone o = true ∨ u.isNodeInLocalZone n = true) ∧
                u.NodeZoneAnnotationChanged o n = true
              then { c with nqosNodeQueue := c.nqosNodeQueue ++ [ObjectName.String n.meta] }
              else c) ∧
      (n.meta.Namespace = "" → ObjectName.String n.meta = n.meta.Name) := by
  refine ⟨?_, ObjectName_String_of_no_namespace n.meta⟩
  cases h1 : u.isNodeInLocalZone o <;> cases h2 : u.isNodeInLocalZone n <;>
    cases h3 : u.NodeZoneAnnotationChanged o n <;>
    simp [onNQOSNodeUpdate, ObjectMeta.GetDeletionTimestamp, hdel, hrv, h1, h2, h3,
      MetaNamespaceKeyFunc, Controller.nqosNodeQueueAdd]

/-- Witness for C1: an update of `ns1/qos1` from resource version 1 to 2 that changes the
`Spec` puts the key `ns1/qos1` on the policy queue. -/
theorem onNQOSUpdate_enqueues_iff_witness :
    ("ns1" : String) ≠ "" ∧
      ObjectName.String (mkMeta "ns1" "qos1" "2") = "ns1/qos1" ∧
      onNQOSUpdate (emptyController : Controller Nat)
          (.ofNetworkQoS (some { meta := mkMeta "ns1" "qos1" "1", Spec := 10 }))
          (.ofNetworkQoS (some { meta := mkMeta "ns1" "qos1" "2", Spec := 20 })) =
        some { (emptyController : Controller Nat) with nqosQueue := ["ns1/qos1"] } :=
  ⟨by decide,
    (onNQOSUpdate_enqueues_iff (emptyController : Controller Nat)
      { meta := mkMeta "ns1" "qos1" "1", Spec := 10 }
      { meta := mkMeta "ns1" "qos1" "2", Spec := 20 }).2.1 (by decide),
    (onNQOSUpdate_enqueues_iff (emptyController : Controller Nat)
      { meta := mkMeta "ns1" "qos1" "1", Spec := 10 }
      { meta := mkMeta "ns1" "qos1" "2", Spec := 20 }).1.trans (by rfl)⟩

/-- Witness for C2: a resync of a NetworkQoS, of a namespace, of a pod and of a node, each
with changed content but the same resource version, leaves the controller unchanged. -/
theorem update_handlers_skip_resync_and_deleting_witness :
    onNQOSUpdate (emptyController : Controller Nat)
        (.ofNetworkQoS (some { meta := mkMeta "ns1" "qos1" "1", Spec := 10 }))
        (.ofNetworkQoS (some { meta := mkMeta "ns1" "qos1" "1", Spec := 20 })) =
        some emptyController ∧
      onNQOSNamespaceUpdate (emptyController : Controller Nat)
        (.ofNamespace (some { meta := mkMeta "" "ns1" "1" }))
        (.ofNamespace (some { meta :=
          { mkMeta "" "ns1" "1" with Labels := some (oneEntry "a" "b") } })) =
        emptyController ∧
      onNQOSPodUpdate (sampleHelpers "zone1") (emptyController : Controller Nat)
        (.ofPod (some { meta := mkMeta "ns1" "pod1" "1", NodeName := "", Phase := "Running",
                        PodIPs := [] }))
        (.ofPod (some { meta := mkMeta "ns1" "pod1" "1", NodeName := "", Phase := "Running",
                        PodIPs := ["10.0.0.1"] })) =
        emptyController ∧
      onNQOSNodeUpdate (sampleHelpers "zone1") (emptyController : Controller Nat)
        (.ofNode (some { meta :=
          { mkMeta "" "node1" "1" with
            Annotations := some (oneEntry "k8s.ovn.org/zone-name" "zone1") } }))
        (.ofNode (some { meta :=
          { mkMeta "" "node1" "1" with
            Annotations := some (oneEntry "k8s.ovn.org/zone-name" "zone2") } })) =
        some emptyController :=
  ⟨(update_handlers_skip_resync_and_deleting (sampleHelpers "zone1")
      (emptyController : Controller Nat)).1 _ _ (Or.inl rfl),
    (update_handlers_skip_resync_and_deleting (sampleHelpers "zone1")
      (emptyController : Controller Nat)).2.1 _ _ (Or.inl rfl),
    (update_handlers_skip_resync_and_deleting (sampleHelpers "zone1")
      (emptyController : Controller Nat)).2.2.1 _ _ (Or.inl rfl),
    (update_handlers_skip_resync_and_deleting (sampleHelpers "zone1")
      (emptyController : Controller Nat)).2.2.2 _ _ (Or.inl rfl)⟩

/-- Witness for C3: a pod update from resource version 1 to 2 in which the pod receives its
first IP is put on the pod queue as the pair (old, new). -/
theorem onNQOSPodUpdate_enqueues_iff_witness :
    onNQOSPodUpdate (sampleHelpers "zone1") (emptyController : Controller Nat)
        (.ofPod (some { meta := mkMeta "ns1" "pod1" "1", NodeName := "n1", Phase := "Running",
                        PodIPs := [] }))
        (.ofPod (some { meta := mkMeta "ns1" "pod1" "2", NodeName := "n1", Phase := "Running",
                        PodIPs := ["10.0.0.1"] })) =
      { (emptyController : Controller Nat) with
        nqosPodQueue :=
          [{ old := some { meta := mkMeta "ns1" "pod1" "1", NodeName := "n1",
                           Phase := "Running", PodIPs := [] },
             new := some { meta := mkMeta "ns1" "pod1" "2", NodeName := "n1",
                           Phase := "Running", PodIPs := ["10.0.0.1"] } }] } :=
  (onNQOSPodUpdate_enqueues_iff (sampleHelpers "zone1") (emptyController : Controller Nat)
    { meta := mkMeta "ns1" "pod1" "1", NodeName := "n1", Phase := "Running", PodIPs := [] }
    { meta := mkMeta "ns1" "pod1" "2", NodeName := "n1", Phase := "Running",
      PodIPs := ["10.0.0.1"] }
    (by decide) rfl).1 (Or.inr (Or.inl (by decide)))

/-- Witness for C4: a namespace update from resource version 1 to 2 that adds the label
`a=b` is put on the namespace queue as the pair (old, new). -/
theorem onNQOSNamespaceUpdate_enqueues_iff_witness :
    onNQOSNamespaceUpdate (emptyController : Controller Nat)
        (.ofNamespace (some { meta := mkMeta "" "ns1" "1" }))
        (.ofNamespace (some { meta :=
          { mkMeta "" "ns1" "2" with Labels := some (oneEntry "a" "b") } })) =
      { (emptyController : Controller Nat) with
        nqosNamespaceQueue :=
          [{ old := some { meta := mkMeta "" "ns1" "1" },
             new := some { meta :=
               { mkMeta "" "ns1" "2" with Labels := some (oneEntry "a" "b") } } }] } :=
  (onNQOSNamespaceUpdate_enqueues_iff (emptyController : Controller Nat)
    { meta := mkMeta "" "ns1" "1" }
    { meta := { mkMeta "" "ns1" "2" with Labels := some (oneEntry "a" "b") } }
    (by decide) rfl).1 ⟨"a", by decide⟩

/-- Witness for C5: a node that leaves the local zone `zone1` for `zone2` between resource
versions 1 and 2 is put on the node queue under its name. -/
theorem onNQOSNodeUpdate_enqueues_iff_witness :
    onNQOSNodeUpdate (sampleHelpers "zone1") (emptyController : Controller Nat)
        (.ofNode (some { meta :=
          { mkMeta "" "node1" "1" with
            Annotations := some (oneEntry "k8s.ovn.org/zone-name" "zone1") } }))
        (.ofNode (some { meta :=
          { mkMeta "" "node1" "2" with
            Annotations := some (oneEntry "k8s.ovn.org/zone-name" "zone2") } })) =
      some { (emptyController : Controller Nat) with nqosNodeQueue := ["node1"] } :=
  (onNQOSNodeUpdate_enqueues_iff (sampleHelpers "zone1") (emptyController : Controller Nat)
    { meta := { mkMeta "" "node1" "1" with
        Annotations := some (oneEntry "k8s.ovn.org/zone-name" "zone1") } }
    { meta := { mkMeta "" "node1" "2" with
        Annotations := some (oneEntry "k8s.ovn.org/zone-name" "zone2") } }
    (by decide) rfl).1.trans (by rfl)

/-- The part of C6 the code keeps: `onNQOSAdd` on a NetworkQoS and `onNQOSDelete` on the
NetworkQoS itself add the object's key to the policy queue, whatever the object holds. -/
theorem onNQOSAdd_onNQOSDelete_enqueue_key [DecidableEq Spec] (c : Controller Spec)
    (q : NetworkQoS Spec) :
    onNQOSAdd c (.ofNetworkQoS (some q)) =
        some { c with nqosQueue := c.nqosQueue ++ [ObjectName.String q.meta] } ∧
      onNQOSDelete c (.ofNetworkQoS (some q)) =
        some { c with nqosQueue := c.nqosQueue ++ [ObjectName.String q.meta] } := by
  constructor <;> rfl

/-- C6, at the failing input: a delete notification that delivers a
`cache.DeletedFinalStateUnknown` wrapping a NetworkQoS makes `onNQOSDelete` report
"couldn't get key" and add nothing to the policy queue, because
`cache.MetaNamespaceKeyFunc` does not look inside the tombstone; the same tombstone
wrapping a namespace is unwrapped and enqueued by `onNQOSNamespaceDelete`. -/
theorem onNQOSDelete_tombstone_not_enqueued :
    onNQOSDelete (emptyController : Controller Nat)
        (.tombstone "ns1/qos1" (.ofNetworkQoS (some { meta := mkMeta "ns1" "qos1" "7",
                                                      Spec := 10 }))) =
      some { (emptyController : Controller Nat) with
        handledErrors :=
          [.couldntGetKey
            (.tombstone "ns1/qos1" (.ofNetworkQoS (some { meta := mkMeta "ns1" "qos1" "7",
                                                          Spec := 10 })))
            errNoMeta] } ∧
      (onNQOSNamespaceDelete (emptyController : Controller Nat)
        (.tombstone "ns1" (.ofNamespace (some { meta := mkMeta "" "ns1" "7" })))).nqosNamespaceQueue =
        [{ old := some { meta := mkMeta "" "ns1" "7" }, new := none }] := by
  constructor <;> rfl

/-- C7: for every namespace `ns`, `onNQOSNamespaceAdd` adds exactly the one item
(absent, ns) to the namespace queue, and `onNQOSNamespaceDelete` adds exactly the one item
(ns, absent), both when `ns` is delivered directly and when it is delivered inside a
`cache.DeletedFinalStateUnknown`; nothing else of the controller changes and nothing in
`ns` is inspected. -/
theorem onNQOSNamespaceAdd_onNQOSNamespaceDelete_enqueue (c : Controller Spec)
    (ns : Namespace) (key : String) :
    onNQOSNamespaceAdd c (.ofNamespace (some ns)) =
        { c with nqosNamespaceQueue :=
            c.nqosNamespaceQueue ++ [{ old := none, new := some ns }] } ∧
      onNQOSNamespaceDelete c (.ofNamespace (some ns)) =
        { c with nqosNamespaceQueue :=
            c.nqosNamespaceQueue ++ [{ old := some ns, new := none }] } ∧
      onNQOSNamespaceDelete c (.tombstone key (.ofNamespace (some ns))) =
        { c with nqosNamespaceQueue :=
            c.nqosNamespaceQueue ++ [{ old := some ns, new := none }] } := by
  refine ⟨?_, ?_, ?_⟩ <;> rfl

end filters

end networkqos

namespace sampledecoder

/-! ## Splitting at the separator -/

theorem splitAt_ne_nil (sep : Char) (l : List Char) : splitAt sep l ≠ [] := by
  cases l with
  | nil => simp [splitAt]
  | cons c cs =>
    by_cases h : c = sep
    · simp [splitAt, h]
    · cases hs : splitAt sep cs <;> simp [splitAt, h, hs]

theorem splitAt_of_not_mem (sep : Char) (l : List Char) (h : sep ∉ l) :
    splitAt sep l = [l] := by
  induction l with
  | nil => rfl
  | cons c cs ih =>
    have hc : c ≠ sep := fun e => h (by simp [e])
    have hcs : sep ∉ cs := fun e => h (List.mem_cons_of_mem _ e)
    simp [splitAt, hc, ih hcs]

theorem splitAt_append_sep (sep : Char) (a b : List Char) (h : sep ∉ a) :
    splitAt sep (a ++ sep :: b) = a :: splitAt sep b := by
  induction a with
  | nil => simp [splitAt]
  | cons c cs ih =>
    have hc : c ≠ sep := fun e => h (by simp [e])
    have hcs : sep ∉ cs := fun e => h (List.mem_cons_of_mem _ e)
    simp [splitAt, hc, ih hcs]

theorem splitAt_one_two (sep : Char) (l : List Char) :
    (∀ x, splitAt sep l = [x] → sep ∉ x ∧ l = x) ∧
      (∀ x y, splitAt sep l = [x, y] → sep ∉ x ∧ sep ∉ y ∧ l = x ++ sep :: y) := by
  induction l with
  | nil =>
    constructor
    · intro x hx
      simp only [splitAt, List.cons.injEq, and_true] at hx
      subst hx
      simp
    · intro x y hxy
      simp [splitAt] at hxy
  | cons c cs ih =>
    obtain ⟨ih1, ih2⟩ := ih
    by_cases hc : c = sep
    · subst hc
      constructor
      · intro x hx
        simp only [splitAt, ↓reduceIte, List.cons.injEq] at hx
        exact absurd hx.2 (splitAt_ne_nil c cs)
      · intro x y hxy
        simp only [splitAt, ↓reduceIte, List.cons.injEq] at hxy
        obtain ⟨hx, hy⟩ := hxy
        subst hx
        obtain ⟨h1, h2⟩ := ih1 y hy
        exact ⟨by simp, h1, by simp [h2]⟩
    · have hc' : sep ≠ c := fun e => hc e.symm
      cases hs : splitAt sep cs with
      | nil => exact absurd hs (splitAt_ne_nil sep cs)
      | cons w ws =>
        constructor
        · intro x hx
          simp only [splitAt, hc, ↓reduceIte, hs, List.cons.injEq] at hx
          obtain ⟨hx, hws⟩ := hx
          subst hx hws
          obtain ⟨h1, h2⟩ := ih1 w hs
          exact ⟨by simp [hc', h1], by simp [h2]⟩
        · intro x y hxy
          simp only [splitAt, hc, ↓reduceIte, hs, List.cons.injEq] at hxy
          obtain ⟨hx, hws⟩ := hxy
          subst hx hws
          obtain ⟨h1, h2, h3⟩ := ih2 w y hs
          exact ⟨by simp [hc', h1], h2, by simp [h3]⟩

/-- The codec accepts a NetworkPolicy owner name exactly when it splits into two pieces. -/
theorem decode_networkPolicy_two (s : String) (x y : List Char)
    (h : splitAt ':' s.data = [x, y]) :
    decode .NetworkPolicy s = .ok (String.mk x, String.mk y) := by
  simp [decode, splitColon, h]

theorem decode_networkPolicy_other (s : String)
    (h : ∀ x y, splitAt ':' s.data ≠ [x, y]) :
    decode .NetworkPolicy s = .error (formatError s) := by
  unfold decode splitColon
  cases hs : splitAt ':' s.data with
  | nil => simp
  | cons a t =>
    cases t with
    | nil => simp
    | cons b t2 =>
      cases t2 with
      | nil => exact absurd hs (h a b)
      | cons d t3 => simp

/-! ## Decoding owner-tagged ACLs -/

/-- C8: for an ACL of owner type NetworkPolicy whose owner name `s` is not of the form
`<namespace>:<name>` (no two texts free of `:` with `s = ns ++ ":" ++ name` exist),
whatever its action and direction tag, `newACLEvent` returns no event but the error whose
text is "expected format namespace:name for Object Name, but found: " followed by `s`. -/
theorem newACLEvent_networkPolicy_malformed (action s : String) (d : Option String)
    (h : ¬ ∃ ns name : String, ':' ∉ ns.data ∧ ':' ∉ name.data ∧ s = ns ++ ":" ++ name) :
    newACLEvent { Action := action, OwnerType := .NetworkPolicy, ObjectName := some s,
                  PolicyDirection := d } =
      .error ("expected format namespace:name for Object Name, but found: " ++ s) := by
  have hd : decode .NetworkPolicy s = .error (formatError s) := by
    apply decode_networkPolicy_other
    intro x y hxy
    obtain ⟨hx, hy, hl⟩ := (splitAt_one_two ':' s.data).2 x y hxy
    refine h ⟨String.mk x, String.mk y, hx, hy, ?_⟩
    apply String.ext
    simp [hl]
  simp [newACLEvent, hd, formatError]

/-- Witness for C8: the owner name "foo" of the test is rejected with the error naming
"foo". -/
theorem newACLEvent_networkPolicy_malformed_witness :
    newACLEvent { Action := "allow", OwnerType := .NetworkPolicy, ObjectName := some "foo",
                  PolicyDirection := some "Ingress" } =
      .error "expected format namespace:name for Object Name, but found: foo" :=
  newACLEvent_networkPolicy_malformed "allow" "foo" (some "Ingress") (by
    rintro ⟨ns, name, -, -, h⟩
    have hmem : ':' ∈ ("foo" : String).data := by
      rw [h]
      simp
    exact absurd hmem (by decide))

/-- C9: for all texts `ns` and `name` free of `:` and every direction tag `d`, decoding an
allow ACL of owner type NetworkPolicy with owner name `ns ++ ":" ++ name` yields an event
with namespace `ns` and name `name` that renders as "Allowed by network policy <name> in
namespace <ns>, direction <d>". -/
theorem newACLEvent_networkPolicy_wellformed (otherAction : String → String)
    (ns name d : String) (hns : ':' ∉ ns.data) (hname : ':' ∉ name.data) :
    ∃ event,
      newACLEvent { Action := ACLActionAllow, OwnerType := .NetworkPolicy,
                    ObjectName := some (ns ++ ":" ++ name), PolicyDirection := some d } =
        .ok event ∧
      event.Namespace = ns ∧ event.Name = name ∧
      event.String otherAction =
        "Allowed by network policy " ++ name ++ " in namespace " ++ ns ++ ", direction " ++ d := by
  have hsplit : splitAt ':' (ns ++ ":" ++ name).data = [ns.data, name.data] := by
    have : (ns ++ ":" ++ name).data = ns.data ++ ':' :: name.data := by simp
    rw [this, splitAt_append_sep ':' _ _ hns, splitAt_of_not_mem ':' _ hname]
  have hd := decode_networkPolicy_two (ns ++ ":" ++ name) ns.data name.data hsplit
  refine ⟨{ Action := ACLActionAllow, Actor := .NetworkPolicy, Name := name, Namespace := ns,
            Direction := d }, ?_, rfl, rfl, ?_⟩
  · simp [newACLEvent, hd, direction]
  · simp only [ACLEvent.String, ACLActionAllow, ↓reduceIte]
    apply String.ext
    simp [String.data_append]

/-- Witness for C9: the owner name "bar:foo" with direction Ingress of the test. -/
theorem newACLEvent_networkPolicy_wellformed_witness :
    ∃ event,
      newACLEvent { Action := "allow", OwnerType := .NetworkPolicy,
                    ObjectName := some "bar:foo", PolicyDirection := some "Ingress" } =
        .ok event ∧
      event.Namespace = "bar" ∧ event.Name = "foo" ∧
      event.String id =
        "Allowed by network policy foo in namespace bar, direction Ingress" :=
  newACLEvent_networkPolicy_wellformed id "bar" "foo" "Ingress" (by decide) (by decide)

/-- C10: for every owner name `n` and every direction tag (present or absent), decoding an
allow ACL of owner type EgressFirewall succeeds, takes `n` as the namespace and not as a
name, renders as "Allowed by egress firewall in namespace <n>" and has Direction
"Egress". -/
theorem newACLEvent_egressFirewall (otherAction : String → String) (n : String)
    (d : Option String) :
    ∃ event,
      newACLEvent { Action := ACLActionAllow, OwnerType := .EgressFirewall,
                    ObjectName := some n, PolicyDirection := d } = .ok event ∧
      event.Namespace = n ∧ event.Name = "" ∧
      event.String otherAction = "Allowed by egress firewall in namespace " ++ n ∧
      event.Direction = "Egress" := by
  refine ⟨{ Action := ACLActionAllow, Actor := .EgressFirewall, Name := "", Namespace := n,
            Direction := "Egress" }, ?_, rfl, rfl, ?_, rfl⟩
  · simp [newACLEvent, decode, direction]
  · simp only [ACLEvent.String, ACLActionAllow, ↓reduceIte]
    apply String.ext
    simp [String.data_append]

/-- C11: for every owner name `n`, with or without a `:`, and every direction tag `d`,
decoding an allow ACL of owner type AdminNetworkPolicy succeeds with name `n` and no
namespace, and the event renders as "Allowed by admin network policy <n>, direction
<d>". -/
theorem newACLEvent_adminNetworkPolicy (otherAction : String → String) (n d : String) :
    ∃ event,
      newACLEvent { Action := ACLActionAllow, OwnerType := .AdminNetworkPolicy,
                    ObjectName := some n, PolicyDirection := some d } = .ok event ∧
      event.Name = n ∧ event.Namespace = "" ∧
      event.String otherAction =
        "Allowed by admin network policy " ++ n ++ ", direction " ++ d := by
  refine ⟨{ Action := ACLActionAllow, Actor := .AdminNetworkPolicy, Name := n,
            Namespace := "", Direction := d }, ?_, rfl, rfl, ?_⟩
  · simp [newACLEvent, decode, direction]
  · simp only [ACLEvent.String, ACLActionAllow, ↓reduceIte]
    apply String.ext
    simp [String.data_append]

/-- C12: for every ACL of owner type NetpolNode, whatever its action, its owner name
(present or absent) and its direction tag (present or absent), decoding succeeds and the
event's Direction is "Ingress"; and when the action is allow the event renders as the fixed
sentence "Allowed by default allow from local node policy, direction Ingress". -/
theorem newACLEvent_netpolNode (otherAction : String → String) (action : String)
    (name d : Option String) :
    (∃ event,
        newACLEvent { Action := action, OwnerType := .NetpolNode, ObjectName := name,
                      PolicyDirection := d } = .ok event ∧
        event.Direction = "Ingress" ∧ event.Name = "" ∧ event.Namespace = "") ∧
      (∃ event,
        newACLEvent { Action := ACLActionAllow, OwnerType := .NetpolNode, ObjectName := name,
                      PolicyDirection := d } = .ok event ∧
        event.String otherAction =
          "Allowed by default allow from local node policy, direction Ingress") := by
  refine ⟨⟨{ Action := action, Actor := .NetpolNode, Name := "", Namespace := "",
             Direction := "Ingress" }, ?_, rfl, rfl, rfl⟩,
          ⟨{ Action := ACLActionAllow, Actor := .NetpolNode, Name := "", Namespace := "",
             Direction := "Ingress" }, ?_, ?_⟩⟩
  · simp [newACLEvent, decode, direction]
  · simp [newACLEvent, decode, direction]
  · rfl

end sampledecoder

namespace workqueue

/-! ## The delay schedule of the fast/slow rate limiter -/

section limiter

variable {T : Type} [DecidableEq T]

theorem When_snd (r : TypedItemFastSlowRateLimiter T) (item : T) :
    (When r item).2 =
      { r with failures := fun x => if x = item then r.failures item + 1 else r.failures x } := by
  by_cases hle : r.failures item + 1 ≤ r.maxFastAttempts <;> simp [When, hle]

theorem applyCall_params (r : TypedItemFastSlowRateLimiter T) (call : Call T) :
    (applyCall r call).maxFastAttempts = r.maxFastAttempts ∧
      (applyCall r call).fastDelay = r.fastDelay ∧
      (applyCall r call).slowDelay = r.slowDelay := by
  cases call with
  | When item =>
    simp [applyCall, When_snd]
  | Forget item => exact ⟨rfl, rfl, rfl⟩

theorem applyCall_failures (r : TypedItemFastSlowRateLimiter T) (call : Call T) (key : T)
    (h : call ≠ .Forget key) :
    (applyCall r call).failures key =
      r.failures key + (if call = .When key then 1 else 0) := by
  cases call with
  | When item =>
    by_cases hk : key = item
    · subst hk
      simp [applyCall, When_snd]
    · have hk2 : ¬ item = key := fun e => hk e.symm
      simp [applyCall, When_snd, hk, hk2]
  | Forget item =>
    have hk : ¬ key = item := fun e => h (by rw [e])
    simp [applyCall, Forget, hk]

theorem applyCalls_params (calls : List (Call T)) (r : TypedItemFastSlowRateLimiter T) :
    (applyCalls r calls).maxFastAttempts = r.maxFastAttempts ∧
      (applyCalls r calls).fastDelay = r.fastDelay ∧
      (applyCalls r calls).slowDelay = r.slowDelay := by
  induction calls generalizing r with
  | nil => exact ⟨rfl, rfl, rfl⟩
  | cons call rest ih =>
    have h1 := applyCall_params r call
    have h2 := ih (applyCall r call)
    simp only [applyCalls, List.foldl_cons] at h2 ⊢
    exact ⟨h2.1.trans h1.1, h2.2.1.trans h1.2.1, h2.2.2.trans h1.2.2⟩

theorem applyCalls_failures (calls : List (Call T)) (r : TypedItemFastSlowRateLimiter T)
    (key : T) (h : Call.Forget key ∉ calls) :
    (applyCalls r calls).failures key = r.failures key + (calls.count (.When key) : Nat) := by
  induction calls generalizing r with
  | nil => simp [applyCalls]
  | cons call rest ih =>
    have hcall : call ≠ .Forget key := fun e => h (by simp [e])
    have hrest : Call.Forget key ∉ rest := fun e => h (List.mem_cons_of_mem _ e)
    have h2 := ih (applyCall r call) hrest
    simp only [applyCalls, List.foldl_cons] at h2 ⊢
    rw [h2, applyCall_failures r call key hcall, List.count_cons]
    by_cases hw : call = .When key
    · simp [hw]; ring
    · have hw2 : ¬ (call == Call.When key) = true := by simpa using hw
      simp [hw]

theorem When_delay (r : TypedItemFastSlowRateLimiter T) (key : T) :
    (When r key).1 =
      if r.failures key + 1 ≤ r.maxFastAttempts then r.fastDelay else r.slowDelay := by
  by_cases hle : r.failures key + 1 ≤ r.maxFastAttempts <;> simp [When, hle]

theorem When_after_calls (r : TypedItemFastSlowRateLimiter T) (calls : List (Call T))
    (key : T) (h0 : r.failures key = 0) (h : Call.Forget key ∉ calls) :
    (When (applyCalls r calls) key).1 =
      if ((calls.count (.When key) : Nat) : Int) + 1 ≤ r.maxFastAttempts then r.fastDelay
      else r.slowDelay := by
  obtain ⟨h1, h2, h3⟩ := applyCalls_params calls r
  rw [When_delay, applyCalls_failures calls r key h, h0, h1, h2, h3, zero_add]

theorem fastSlow_delay (m : Nat) (f s : Duration) :
    (if ((m : Nat) : Int) + 1 ≤ 5 then f else s) = if m + 1 ≤ 5 then f else s := by
  by_cases hc : m + 1 ≤ 5
  · have : ((m : Nat) : Int) + 1 ≤ 5 := by omega
    simp [hc, this]
  · have : ¬ ((m : Nat) : Int) + 1 ≤ 5 := by omega
    simp [hc, this]

end limiter

end workqueue

namespace networkqos

/-! ## The rate limiters of the four queues -/

/-- C13: `NewController` builds each of the four queues with the fast/slow rate limiter of
parameters 1 second, 5 seconds and 5 fast attempts. For such a limiter and every key, the
delay of the n-th `When` of the key since the start, or since the last `Forget` of the key,
is 1 second when n <= 5 and 5 seconds when n > 5, whatever calls for other keys come in
between; and `Forget` sets the number of requeues of the key back to 0. -/
theorem fastSlow_schedule_of_queues :
    (NewController.nqosQueue =
        workqueue.NewTypedItemFastSlowRateLimiter (1 * workqueue.Second)
          (5 * workqueue.Second) 5 ∧
      NewController.nqosNamespaceQueue =
        workqueue.NewTypedItemFastSlowRateLimiter (1 * workqueue.Second)
          (5 * workqueue.Second) 5 ∧
      NewController.nqosPodQueue =
        workqueue.NewTypedItemFastSlowRateLimiter (1 * workqueue.Second)
          (5 * workqueue.Second) 5 ∧
      NewController.nqosNodeQueue =
        workqueue.NewTypedItemFastSlowRateLimiter (1 * workqueue.Second)
          (5 * workqueue.Second) 5) ∧
      (∀ (T : Type) [DecidableEq T] (calls : List (workqueue.Call T)) (key : T),
        workqueue.Call.Forget key ∉ calls →
        (workqueue.When
            (workqueue.applyCalls
              (workqueue.NewTypedItemFastSlowRateLimiter (1 * workqueue.Second)
                (5 * workqueue.Second) 5) calls) key).1 =
          if calls.count (.When key) + 1 ≤ 5 then 1 * workqueue.Second
          else 5 * workqueue.Second) ∧
      (∀ (T : Type) [DecidableEq T] (before after : List (workqueue.Call T)) (key : T),
        workqueue.Call.Forget key ∉ after →
        (workqueue.When
            (workqueue.applyCalls
              (workqueue.Forget
                (workqueue.applyCalls
                  (workqueue.NewTypedItemFastSlowRateLimiter (1 * workqueue.Second)
                    (5 * workqueue.Second) 5) before) key) after) key).1 =
          if after.count (.When key) + 1 ≤ 5 then 1 * workqueue.Second
          else 5 * workqueue.Second) ∧
      (∀ (T : Type) [DecidableEq T] (calls : List (workqueue.Call T)) (key : T),
        workqueue.NumRequeues
            (workqueue.Forget
              (workqueue.applyCalls
                (workqueue.NewTypedItemFastSlowRateLimiter (1 * workqueue.Second)
                  (5 * workqueue.Second) 5) calls) key) key = 0) := by
  refine ⟨⟨rfl, rfl, rfl, rfl⟩, ?_, ?_, ?_⟩
  · intro T _ calls key h
    rw [workqueue.When_after_calls _ calls key rfl h]
    exact workqueue.fastSlow_delay _ _ _
  · intro T _ before after key h
    obtain ⟨g1, g2, g3⟩ := workqueue.applyCalls_params before
      (workqueue.NewTypedItemFastSlowRateLimiter (T := T) (1 * workqueue.Second)
        (5 * workqueue.Second) 5)
    have h0 : (workqueue.Forget (workqueue.applyCalls
        (workqueue.NewTypedItemFastSlowRateLimiter (T := T) (1 * workqueue.Second)
          (5 * workqueue.Second) 5) before) key).failures key = 0 := by
      simp [workqueue.Forget]
    have p1 : (workqueue.Forget (workqueue.applyCalls
        (workqueue.NewTypedItemFastSlowRateLimiter (T := T) (1 * workqueue.Second)
          (5 * workqueue.Second) 5) before) key).maxFastAttempts = 5 := g1
    have p2 : (workqueue.Forget (workqueue.applyCalls
        (workqueue.NewTypedItemFastSlowRateLimiter (T := T) (1 * workqueue.Second)
          (5 * workqueue.Second) 5) before) key).fastDelay = 1 * workqueue.Second := g2
    have p3 : (workqueue.Forget (workqueue.applyCalls
        (workqueue.NewTypedItemFastSlowRateLimiter (T := T) (1 * workqueue.Second)
          (5 * workqueue.Second) 5) before) key).slowDelay = 5 * workqueue.Second := g3
    rw [workqueue.When_after_calls _ after key h0 h, p1, p2, p3]
    exact workqueue.fastSlow_delay _ _ _
  · intro T _ calls key
    simp [workqueue.NumRequeues, workqueue.Forget]

/-- Witness for C13: after six failures of "a" and a `Forget`, the second `When` of "a" is
answered with 1 second although "b" has failed seven times in between; without the `Forget`
the seventh `When` of "a" is answered with 5 seconds. -/
theorem fastSlow_schedule_of_queues_witness :
    (workqueue.When
        (workqueue.applyCalls
          (workqueue.Forget
            (workqueue.applyCalls NewController.nqosQueue
              [.When "a", .When "a", .When "a", .When "a", .When "a", .When "a"]) "a")
          [.When "b", .When "a", .When "b", .When "b", .When "b", .When "b", .When "b",
           .When "b"]) "a").1 = 1000000000 ∧
      (workqueue.When
        (workqueue.applyCalls NewController.nqosQueue
          [.When "a", .When "a", .When "a", .When "b", .When "a", .When "a", .When "a"])
        "a").1 = 5000000000 :=
  ⟨(fastSlow_schedule_of_queues.2.2.1 String
      [.When "a", .When "a", .When "a", .When "a", .When "a", .When "a"]
      [.When "b", .When "a", .When "b", .When "b", .When "b", .When "b", .When "b",
       .When "b"] "a" (by decide)).trans (by decide),
    (fastSlow_schedule_of_queues.2.1 String
      [.When "a", .When "a", .When "a", .When "b", .When "a", .When "a", .When "a"]
      "a" (by decide)).trans (by decide)⟩

/-! ## The start-up sequence of `Run` -/

theorem startWorker_not_mem_of_aborted (env : RunEnv) (threadiness : Int)
    (h : env.cachesSynced.ok = false ∨ ∃ o, env.nadSynced = some o ∧ o.ok = false) :
    (∀ err, RunEvent.repairNetworkQoSes err ∉ Run env threadiness) ∧
      (∀ q, RunEvent.startWorker q ∉ Run env threadiness) := by
  by_cases h1 : env.cachesSynced.ok = false
  · simp [Run, h1]
  · rcases h with h | ⟨o, ho, hok⟩
    · exact absurd h h1
    · have h1t : env.cachesSynced.ok = true := by simpa using h1
      simp [Run, h1t, ho, hok]

theorem cons_of_append_eq_cons {α : Type} (pre post rest : List α) (x a : α) (hne : x ≠ a)
    (h : pre ++ x :: post = a :: rest) :
    ∃ pre1, pre = a :: pre1 ∧ pre1 ++ x :: post = rest := by
  cases pre with
  | nil =>
    simp only [List.nil_append, List.cons.injEq] at h
    exact absurd h.1 hne
  | cons b pre1 =>
    simp only [List.cons_append, List.cons.injEq] at h
    exact ⟨pre1, by rw [h.1], h.2⟩

theorem Run_of_synced (env : RunEnv) (threadiness : Int) (h1 : env.cachesSynced = .synced)
    (h2 : ∀ o, env.nadSynced = some o → o = .synced) :
    Run env threadiness =
      (RunEvent.WaitForInformerCacheSyncWithTimeout
          ["nqosCacheSynced", "nqosNamespaceSynced", "nqosPodSynced", "nqosNodeSynced"]
          .synced ::
        (match env.nadSynced with
          | some _ => [RunEvent.WaitForInformerCacheSyncWithTimeout ["nadSynced"] .synced]
          | none => [])) ++ runSynced env threadiness := by
  cases hn : env.nadSynced with
  | none => simp [Run, h1, hn, WaitOutcome.ok]
  | some o =>
    have ho := h2 o hn
    subst ho
    simp [Run, h1, hn, WaitOutcome.ok]

/-- C14: when waiting for the four informer caches reports failure, or the net-attach-def
cache is configured and waiting for it reports failure, `Run` returns without calling
`repairNetworkQoSes` and without starting a worker for any queue. And in every run, every
start of a worker comes after the wait for the four caches has reported them synchronized
and, when the net-attach-def cache is configured, after the wait for it has too. -/
theorem Run_starts_no_worker_before_sync (env : RunEnv) (threadiness : Int) :
    ((env.cachesSynced.ok = false ∨ ∃ o, env.nadSynced = some o ∧ o.ok = false) →
        (∀ err, RunEvent.repairNetworkQoSes err ∉ Run env threadiness) ∧
          (∀ q, RunEvent.startWorker q ∉ Run env threadiness)) ∧
      (∀ pre post q, Run env threadiness = pre ++ RunEvent.startWorker q :: post →
        RunEvent.WaitForInformerCacheSyncWithTimeout
            ["nqosCacheSynced", "nqosNamespaceSynced", "nqosPodSynced", "nqosNodeSynced"]
            .synced ∈ pre ∧
          (env.nadSynced ≠ none →
            RunEvent.WaitForInformerCacheSyncWithTimeout ["nadSynced"] .synced ∈ pre)) := by
  refine ⟨startWorker_not_mem_of_aborted env threadiness, ?_⟩
  intro pre post q hrun
  have hmem : RunEvent.startWorker q ∈ Run env threadiness := by
    rw [hrun]
    simp
  have h1 : env.cachesSynced = .synced := by
    by_contra hc
    have hok : env.cachesSynced.ok = false := by
      cases hcs : env.cachesSynced <;> simp_all [WaitOutcome.ok]
    exact (startWorker_not_mem_of_aborted env threadiness (Or.inl hok)).2 q hmem
  have h2 : ∀ o, env.nadSynced = some o → o = .synced := by
    intro o ho
    by_contra hc
    have hok : o.ok = false := by
      cases o <;> simp_all [WaitOutcome.ok]
    exact (startWorker_not_mem_of_aborted env threadiness (Or.inr ⟨o, ho, hok⟩)).2 q hmem
  rw [Run_of_synced env threadiness h1 h2, List.cons_append] at hrun
  obtain ⟨pre1, hpre, hrest⟩ :=
    cons_of_append_eq_cons pre post _ _ _ (by simp) hrun.symm
  subst hpre
  refine ⟨by simp, ?_⟩
  intro hnad
  cases hn : env.nadSynced with
  | none => exact absurd hn hnad
  | some o =>
    rw [hn] at hrest
    simp only [List.singleton_append] at hrest
    obtain ⟨pre2, hpre2, -⟩ := cons_of_append_eq_cons pre1 post _ _ _ (by simp) hrest
    subst hpre2
    simp

/-- Witness for C14: when the wait for the four caches times out, the run consists of the
wait and the report of the error; no repair, no worker. -/
theorem Run_starts_no_worker_before_sync_witness :
    Run { cachesSynced := .timedOut, nadSynced := none, repairErr := none } 3 =
        [.WaitForInformerCacheSyncWithTimeout
            ["nqosCacheSynced", "nqosNamespaceSynced", "nqosPodSynced", "nqosNodeSynced"]
            .timedOut,
          .HandleError
            "timed out waiting for informer caches (networkqos,namespace,pod,node) to sync"] ∧
      (∀ q, RunEvent.startWorker q ∉
        Run { cachesSynced := .timedOut, nadSynced := none, repairErr := none } 3) :=
  ⟨rfl,
    ((Run_starts_no_worker_before_sync
      { cachesSynced := .timedOut, nadSynced := none, repairErr := none } 3).1
      (Or.inl rfl)).2⟩

/-- C15: when all caches synchronize, `Run` calls `repairNetworkQoSes` exactly once, every
start of a worker comes after that call, and for each of the four queues exactly
`threadiness` workers are started (none for a negative `threadiness`), whether the repair
pass returned an error or not. -/
theorem Run_repairs_once_then_starts_workers (env : RunEnv) (threadiness : Int)
    (h1 : env.cachesSynced = .synced) (h2 : ∀ o, env.nadSynced = some o → o = .synced) :
    (Run env threadiness).count (.repairNetworkQoSes env.repairErr) = 1 ∧
      (∀ err, RunEvent.repairNetworkQoSes err ∈ Run env threadiness → err = env.repairErr) ∧
      (∀ pre post q, Run env threadiness = pre ++ RunEvent.startWorker q :: post →
        RunEvent.repairNetworkQoSes env.repairErr ∈ pre) ∧
      (∀ q, (Run env threadiness).count (.startWorker q) = threadiness.toNat) := by
  rw [Run_of_synced env threadiness h1 h2]
  refine ⟨?_, ?_, ?_, ?_⟩
  · cases env.nadSynced <;>
      simp [runSynced, startWorkers, List.count_cons, List.count_append, List.count_replicate]
  · intro err
    cases env.nadSynced <;>
      simp [runSynced, startWorkers, List.mem_replicate]
  · intro pre post q hrun
    rw [List.cons_append] at hrun
    obtain ⟨pre1, hpre, hrest⟩ :=
      cons_of_append_eq_cons pre post _ _ _ (by simp) hrun.symm
    subst hpre
    cases hn : env.nadSynced with
    | none =>
      rw [hn] at hrest
      simp only [List.nil_append, runSynced, List.singleton_append, List.cons_append,
        List.append_assoc] at hrest
      obtain ⟨pre2, hpre2, -⟩ := cons_of_append_eq_cons pre1 post _ _ _ (by simp) hrest
      subst hpre2
      simp
    | some o =>
      rw [hn] at hrest
      simp only [List.singleton_append, runSynced, List.cons_append,
        List.append_assoc] at hrest
      obtain ⟨pre2, hpre2, hrest2⟩ := cons_of_append_eq_cons pre1 post _ _ _ (by simp) hrest
      subst hpre2
      obtain ⟨pre3, hpre3, -⟩ := cons_of_append_eq_cons pre2 post _ _ _ (by simp) hrest2
      subst hpre3
      simp
  · intro q
    cases env.nadSynced <;> cases q <;>
      simp [runSynced, startWorkers, List.count_cons, List.count_append, List.count_replicate]

/-- Witness for C15: with all caches synchronized and a failing repair pass, a run with
`threadiness` 2 starts two workers for the pod queue. -/
theorem Run_repairs_once_then_starts_workers_witness :
    (Run { cachesSynced := .synced, nadSynced := some .synced, repairErr := some "failed" }
        2).count (.startWorker .nqosPods) = 2 :=
  (Run_repairs_once_then_starts_workers
    { cachesSynced := .synced, nadSynced := some .synced, repairErr := some "failed" } 2
    rfl (by intro o ho; cases ho; rfl)).2.2.2 .nqosPods

end networkqos

namespace healthcheck

/-! ## Lemmas on maps given by their entries -/

section entries

variable {V : Type}

theorem lookup_cons_ite (a : NamespacedName) (b : V) (l : List (NamespacedName × V))
    (k : NamespacedName) :
    ((a, b) :: l).lookup k = if k = a then some b else l.lookup k := by
  by_cases h : k = a
  · subst h
    simp
  · have hb : (k == a) = false := by simpa using h
    simp [List.lookup_cons, hb, h]

theorem mem_of_lookup (l : List (NamespacedName × V)) (k : NamespacedName) (v : V)
    (h : l.lookup k = some v) : (k, v) ∈ l := by
  induction l with
  | nil => simp at h
  | cons hd tl ih =>
    obtain ⟨a, b⟩ := hd
    rw [lookup_cons_ite] at h
    by_cases hk : k = a
    · simp only [hk, ↓reduceIte, Option.some.injEq] at h
      simp [hk, h]
    · simp only [hk, ↓reduceIte] at h
      exact List.mem_cons_of_mem _ (ih h)

theorem lookup_eq_none_of_not_mem_keys (l : List (NamespacedName × V)) (k : NamespacedName)
    (h : k ∉ l.map Prod.fst) : l.lookup k = none := by
  cases hl : l.lookup k with
  | none => rfl
  | some v => exact absurd (List.mem_map.2 ⟨(k, v), mem_of_lookup l k v hl, rfl⟩) h

theorem not_mem_keys_of_lookup_eq_none (l : List (NamespacedName × V)) (k : NamespacedName)
    (h : l.lookup k = none) : k ∉ l.map Prod.fst := by
  induction l with
  | nil => simp
  | cons hd tl ih =>
    obtain ⟨a, b⟩ := hd
    rw [lookup_cons_ite] at h
    by_cases hk : k = a
    · simp [hk] at h
    · simp only [hk, ↓reduceIte] at h
      simp only [List.map_cons, List.mem_cons, not_or]
      exact ⟨hk, ih h⟩

theorem lookup_filter_of_lookup (p : NamespacedName × V → Bool)
    (l : List (NamespacedName × V)) (k : NamespacedName) (v : V)
    (h : l.lookup k = some v) (hp : p (k, v) = true) : (l.filter p).lookup k = some v := by
  induction l with
  | nil => simp at h
  | cons hd tl ih =>
    obtain ⟨a, b⟩ := hd
    rw [lookup_cons_ite] at h
    by_cases hk : k = a
    · simp only [hk, ↓reduceIte, Option.some.injEq] at h
      subst hk h
      simp [List.filter_cons, hp]
    · simp only [hk, ↓reduceIte] at h
      by_cases hpa : p (a, b) = true
      · simp [List.filter_cons, hpa, lookup_cons_ite, hk, ih h]
      · simp [List.filter_cons, hpa, ih h]

theorem lookup_filter_eq_none (p : NamespacedName × V → Bool)
    (l : List (NamespacedName × V)) (k : NamespacedName)
    (h : l.lookup k = none) : (l.filter p).lookup k = none :=
  List.Sublist.lookup_eq_none (List.filter_sublist l) h

theorem lookup_filter_eq_none_of_nodup (p : NamespacedName × V → Bool)
    (l : List (NamespacedName × V)) (hl : (l.map Prod.fst).Nodup) (k : NamespacedName) (v : V)
    (h : l.lookup k = some v) (hp : p (k, v) = false) : (l.filter p).lookup k = none := by
  induction l with
  | nil => simp
  | cons hd tl ih =>
    obtain ⟨a, b⟩ := hd
    simp only [List.map_cons, List.nodup_cons] at hl
    rw [lookup_cons_ite] at h
    by_cases hk : k = a
    · simp only [hk, ↓reduceIte, Option.some.injEq] at h
      subst hk h
      simp only [List.filter_cons, hp, Bool.false_eq_true, ↓reduceIte]
      exact lookup_filter_eq_none p tl k (lookup_eq_none_of_not_mem_keys tl k hl.1)
    · simp only [hk, ↓reduceIte] at h
      by_cases hpa : p (a, b) = true
      · simp [List.filter_cons, hpa, lookup_cons_ite, hk, ih hl.2 h]
      · simp [List.filter_cons, hpa, ih hl.2 h]

theorem nodup_keys_filter (p : NamespacedName × V → Bool) (l : List (NamespacedName × V))
    (hl : (l.map Prod.fst).Nodup) : ((l.filter p).map Prod.fst).Nodup :=
  List.Nodup.sublist ((List.filter_sublist l).map Prod.fst) hl

theorem lookup_map_snd (f : NamespacedName → V → V) (l : List (NamespacedName × V))
    (k : NamespacedName) :
    (l.map fun e => (e.1, f e.1 e.2)).lookup k = (l.lookup k).map (f k) := by
  induction l with
  | nil => simp
  | cons hd tl ih =>
    obtain ⟨a, b⟩ := hd
    simp only [List.map_cons, lookup_cons_ite, ih]
    by_cases hk : k = a
    · simp [hk]
    · simp [hk]

end entries

/-! ## Adding the services of the new map -/

theorem lookup_addService (acc : List (NamespacedName × hcInstance))
    (e : NamespacedName × Nat) (k : NamespacedName) :
    (addService acc e).lookup k =
      match acc.lookup k with
      | some v => some v
      | none => if k = e.1 then some { port := e.2, endpoints := 0 } else none := by
  unfold addService
  cases hacc : acc.lookup k with
  | some v =>
    by_cases he : (acc.lookup e.1).isSome = true
    · simp [he, hacc]
    · simp [he, List.lookup_append, hacc]
  | none =>
    by_cases he : (acc.lookup e.1).isSome = true
    · have hk : k ≠ e.1 := by
        intro hke
        rw [← hke, hacc] at he
        simp at he
      simp [he, hacc, hk]
    · simp only [he, Bool.false_eq_true, ↓reduceIte, List.lookup_append, hacc, Option.none_or]
      rw [lookup_cons_ite]
      simp

theorem lookup_foldl_addService (m : List (NamespacedName × Nat))
    (acc : List (NamespacedName × hcInstance)) (k : NamespacedName) :
    (m.foldl addService acc).lookup k =
      match acc.lookup k with
      | some v => some v
      | none => (m.lookup k).map fun port => { port := port, endpoints := 0 } := by
  induction m generalizing acc with
  | nil => cases h : acc.lookup k <;> simp [h]
  | cons e rest ih =>
    obtain ⟨a, b⟩ := e
    rw [List.foldl_cons, ih, lookup_addService, lookup_cons_ite]
    cases hacc : acc.lookup k with
    | some v => simp
    | none =>
      by_cases hk : k = a
      · simp [hk]
      · simp [hk]

theorem nodup_keys_addService (acc : List (NamespacedName × hcInstance))
    (e : NamespacedName × Nat) (h : (acc.map Prod.fst).Nodup) :
    ((addService acc e).map Prod.fst).Nodup := by
  unfold addService
  by_cases he : (acc.lookup e.1).isSome = true
  · simp [he, h]
  · have hnone : acc.lookup e.1 = none := by
      cases hl : acc.lookup e.1 with
      | none => rfl
      | some v => simp [hl] at he
    have hnot := not_mem_keys_of_lookup_eq_none acc e.1 hnone
    simp only [he, Bool.false_eq_true, ↓reduceIte, List.map_append, List.map_cons,
      List.map_nil]
    exact List.Nodup.append h (by simp) (by
      intro x hx1 hx2
      simp only [List.mem_singleton] at hx2
      exact hnot (hx2 ▸ hx1))

theorem nodup_keys_foldl_addService (m : List (NamespacedName × Nat))
    (acc : List (NamespacedName × hcInstance)) (h : (acc.map Prod.fst).Nodup) :
    ((m.foldl addService acc).map Prod.fst).Nodup := by
  induction m generalizing acc with
  | nil => exact h
  | cons e rest ih => exact ih _ (nodup_keys_addService acc e h)

/-! ## `SyncServices`, `SyncEndpoints` and the handler -/

/-- C16: for every prior state and every new map `m`, `SyncServices` returns without error
and the services tracked afterwards are exactly the identities of `m`: an identity is
tracked if and only if `m` has it; a service tracked before whose identity is absent from
`m` is no longer tracked and its listener has been closed; and for a map without entries
(empty or nil) nothing is tracked afterwards. -/
theorem SyncServices_replaces_tracked (hcs : server) (m : List (NamespacedName × Nat)) :
    (∃ hcs1, SyncServices hcs m = .ok hcs1 ∧
        (∀ k, (hcs1.services.lookup k).isSome = (m.lookup k).isSome) ∧
        (∀ k svc, hcs.services.lookup k = some svc → m.lookup k = none →
          hcs1.services.lookup k = none ∧ (k, svc) ∈ hcs1.closed)) ∧
      (∃ hcs0, SyncServices hcs [] = .ok hcs0 ∧ hcs0.services = []) := by
  refine ⟨⟨_, rfl, ?_, ?_⟩, ⟨_, rfl, ?_⟩⟩
  · intro k
    simp only [lookup_foldl_addService]
    cases hkeep : (hcs.services.filter (stillWanted m)).lookup k with
    | none => cases m.lookup k <;> simp
    | some v =>
      have hmem := mem_of_lookup _ k v hkeep
      have hw : stillWanted m (k, v) = true := (List.mem_filter.1 hmem).2
      simp only [stillWanted, beq_iff_eq] at hw
      simp [hw]
  · intro k svc hk hm
    constructor
    · simp only [lookup_foldl_addService, hm, Option.map_none']
      have hw : stillWanted m (k, svc) = false := by simp [stillWanted, hm]
      cases hkeep : (hcs.services.filter (stillWanted m)).lookup k with
      | none => rfl
      | some v =>
        have hmem := mem_of_lookup _ k v hkeep
        have hw2 : stillWanted m (k, v) = true := (List.mem_filter.1 hmem).2
        simp [stillWanted, hm] at hw2
    · have hw : stillWanted m (k, svc) = false := by simp [stillWanted, hm]
      exact List.mem_append_right _
        (List.mem_filter.2 ⟨mem_of_lookup _ k svc hk, by simp [hw]⟩)
  · simp [stillWanted]

/-- Witness for C16: with a/b tracked on port 9376 with 18 endpoints, `SyncServices` of
the map {c/d: 12909} leaves exactly c/d tracked and closes the listener of a/b, and
`SyncServices` of the nil map leaves nothing tracked. -/
theorem SyncServices_replaces_tracked_witness :
    SyncServices { services := [(mknsn "a" "b", { port := 9376, endpoints := 18 })],
                   closed := [] } [(mknsn "c" "d", 12909)] =
        .ok { services := [(mknsn "c" "d", { port := 12909, endpoints := 0 })],
              closed := [(mknsn "a" "b", { port := 9376, endpoints := 18 })] } ∧
      (∃ hcs0, SyncServices { services := [(mknsn "a" "b", { port := 9376, endpoints := 18 })],
                              closed := [] } [] = .ok hcs0 ∧ hcs0.services = []) :=
  ⟨rfl,
    (SyncServices_replaces_tracked
      { services := [(mknsn "a" "b", { port := 9376, endpoints := 18 })], closed := [] }
      [(mknsn "c" "d", 12909)]).2⟩

/-- C17: for a prior state whose tracked identities are pairwise distinct, after
`SyncServices(m)` a service that was tracked before and has the same port in `m` keeps its
entry, local-endpoint count included, while an identity of `m` that was not tracked, or was
tracked on another port, is a fresh entry on the port of `m` with 0 local endpoints; the
tracked identities are pairwise distinct afterwards too. -/
theorem SyncServices_keeps_or_resets_counts (hcs : server) (m : List (NamespacedName × Nat))
    (hwf : (hcs.services.map Prod.fst).Nodup) :
    ∃ hcs1, SyncServices hcs m = .ok hcs1 ∧
      (∀ k svc, hcs.services.lookup k = some svc → m.lookup k = some svc.port →
        hcs1.services.lookup k = some svc) ∧
      (∀ k port, m.lookup k = some port →
        (∀ svc, hcs.services.lookup k = some svc → svc.port ≠ port) →
        hcs1.services.lookup k = some { port := port, endpoints := 0 }) ∧
      (hcs1.services.map Prod.fst).Nodup := by
  refine ⟨_, rfl, ?_, ?_, ?_⟩
  · intro k svc hk hm
    have hw : stillWanted m (k, svc) = true := by simp [stillWanted, hm]
    simp only [lookup_foldl_addService,
      lookup_filter_of_lookup (stillWanted m) hcs.services k svc hk hw]
  · intro k port hm hne
    have hkeep : (hcs.services.filter (stillWanted m)).lookup k = none := by
      cases hk : hcs.services.lookup k with
      | none => exact lookup_filter_eq_none _ _ k hk
      | some svc =>
        have hw : stillWanted m (k, svc) = false := by
          have := hne svc hk
          simp only [stillWanted, hm, beq_eq_false_iff_ne, ne_eq, Option.some.injEq]
          exact fun e => this e.symm
        exact lookup_filter_eq_none_of_nodup _ _ hwf k svc hk hw
    simp only [lookup_foldl_addService, hkeep, hm, Option.map_some']
  · exact nodup_keys_foldl_addService m _ (nodup_keys_filter _ _ hwf)

/-- Witness for C17: the step of `TestServer` in which a/b is removed, c/d:12909 is left,
e/f moves from port 11113 to 11114 and g/h is added: c/d keeps its 3 endpoints, e/f and g/h
are at 0. -/
theorem SyncServices_keeps_or_resets_counts_witness :
    ∃ hcs1,
      SyncServices
          { services := [(mknsn "a" "b", { port := 9376, endpoints := 9 }),
                         (mknsn "c" "d", { port := 12909, endpoints := 3 }),
                         (mknsn "e" "f", { port := 11113, endpoints := 7 })],
            closed := [] }
          [(mknsn "c" "d", 12909), (mknsn "e" "f", 11114), (mknsn "g" "h", 11878)] =
        .ok hcs1 ∧
      hcs1.services.lookup (mknsn "c" "d") = some { port := 12909, endpoints := 3 } ∧
      hcs1.services.lookup (mknsn "e" "f") = some { port := 11114, endpoints := 0 } ∧
      hcs1.services.lookup (mknsn "g" "h") = some { port := 11878, endpoints := 0 } := by
  obtain ⟨hcs1, h1, hkeep, hfresh, -⟩ :=
    SyncServices_keeps_or_resets_counts
      { services := [(mknsn "a" "b", { port := 9376, endpoints := 9 }),
                     (mknsn "c" "d", { port := 12909, endpoints := 3 }),
                     (mknsn "e" "f", { port := 11113, endpoints := 7 })],
        closed := [] }
      [(mknsn "c" "d", 12909), (mknsn "e" "f", 11114), (mknsn "g" "h", 11878)]
      (by decide)
  exact ⟨hcs1, h1,
    hkeep (mknsn "c" "d") { port := 12909, endpoints := 3 } (by decide) (by decide),
    hfresh (mknsn "e" "f") 11114 (by decide) (by decide),
    hfresh (mknsn "g" "h") 11878 (by decide) (by decide)⟩

/-- C18: for every prior state and every map `c` of counts, `SyncEndpoints` returns
without error and tracks the same identities as before, in particular none that only `c`
names; every tracked service keeps its port and has the local-endpoint count `c` gives its
identity, or 0 when `c` has no entry for it; no listener is closed. -/
theorem SyncEndpoints_sets_counts (hcs : server) (c : List (NamespacedName × Int)) :
    ∃ hcs1, SyncEndpoints hcs c = .ok hcs1 ∧
      hcs1.services.map Prod.fst = hcs.services.map Prod.fst ∧
      (∀ k, (hcs1.services.lookup k).isSome = (hcs.services.lookup k).isSome) ∧
      (∀ k svc, hcs.services.lookup k = some svc →
        hcs1.services.lookup k =
          some { port := svc.port,
                 endpoints := match c.lookup k with
                   | some n => n
                   | none => 0 }) ∧
      hcs1.closed = hcs.closed := by
  have hl : ∀ k, (hcs.services.map fun e =>
      (e.1, ({ e.2 with endpoints := (c.lookup e.1).getD 0 } : hcInstance))).lookup k =
      (hcs.services.lookup k).map
        (fun svc => { svc with endpoints := (c.lookup k).getD 0 }) :=
    fun k => lookup_map_snd (fun k1 svc => { svc with endpoints := (c.lookup k1).getD 0 })
      hcs.services k
  refine ⟨_, rfl, ?_, ?_, ?_, rfl⟩
  · simp [List.map_map, Function.comp_def]
  · intro k
    simp only [hl]
    cases hcs.services.lookup k <;> rfl
  · intro k svc hk
    simp only [hl, hk, Option.map_some']
    cases c.lookup k <;> rfl

/-- Witness for C18: with nothing tracked, `SyncEndpoints` of {a/b: 93} tracks nothing;
with a/b tracked at 11 endpoints, `SyncEndpoints` of the nil map keeps a/b at 0. -/
theorem SyncEndpoints_sets_counts_witness :
    SyncEndpoints NewServer [(mknsn "a" "b", 93)] = .ok NewServer ∧
      (∃ hcs1,
        SyncEndpoints { services := [(mknsn "a" "b", { port := 9376, endpoints := 11 })],
                        closed := [] } [] = .ok hcs1 ∧
        hcs1.services.lookup (mknsn "a" "b") = some { port := 9376, endpoints := 0 }) := by
  obtain ⟨hcs1, h1, -, -, hcount, -⟩ :=
    SyncEndpoints_sets_counts
      { services := [(mknsn "a" "b", { port := 9376, endpoints := 11 })], closed := [] } []
  exact ⟨rfl, hcs1, h1,
    hcount (mknsn "a" "b") { port := 9376, endpoints := 11 } (by decide)⟩

/-- C19, counterexample: the last step of `TestServer`. With c/d, e/f and g/h tracked,
`SyncEndpoints` of a map without c/d returns a state in which c/d is still tracked, on its
port and with 0 endpoints, and in which no listener has been closed. -/
theorem SyncEndpoints_removes_absent_counterexample :
    SyncEndpoints
        { services := [(mknsn "c" "d", { port := 12909, endpoints := 3 }),
                       (mknsn "e" "f", { port := 11114, endpoints := 7 }),
                       (mknsn "g" "h", { port := 11878, endpoints := 6 })],
          closed := [] }
        [(mknsn "e" "f", 7), (mknsn "g" "h", 6)] =
      .ok { services := [(mknsn "c" "d", { port := 12909, endpoints := 0 }),
                         (mknsn "e" "f", { port := 11114, endpoints := 7 }),
                         (mknsn "g" "h", { port := 11878, endpoints := 6 })],
            closed := [] } ∧
      ([(mknsn "e" "f", (7 : Int)), (mknsn "g" "h", 6)].lookup (mknsn "c" "d") = none) ∧
      ([(mknsn "c" "d", ({ port := 12909, endpoints := 0 } : hcInstance)),
        (mknsn "e" "f", { port := 11114, endpoints := 7 }),
        (mknsn "g" "h", { port := 11878, endpoints := 6 })].lookup (mknsn "c" "d") ≠ none) := by
  refine ⟨rfl, by decide, by decide⟩

/-- C19, as amended: after `SyncEndpoints(c)` every tracked service whose identity is
absent from `c` is still tracked, on its port and with 0 local endpoints, and no listener is
closed. -/
theorem SyncEndpoints_zeroes_absent (hcs : server) (c : List (NamespacedName × Int)) :
    ∃ hcs1, SyncEndpoints hcs c = .ok hcs1 ∧
      (∀ k svc, hcs.services.lookup k = some svc → c.lookup k = none →
        hcs1.services.lookup k = some { port := svc.port, endpoints := 0 }) ∧
      hcs1.closed = hcs.closed := by
  refine ⟨_, rfl, ?_, rfl⟩
  intro k svc hk hc
  have hl := lookup_map_snd (fun k1 svc => { svc with endpoints := (c.lookup k1).getD 0 })
    hcs.services k
  simp only [SyncEndpoints] at hl ⊢
  rw [hl, hk, hc]
  rfl

/-- Witness for C19 as amended: with a/b tracked at 11 endpoints, `SyncEndpoints` of a map
that names only c/d keeps a/b tracked at 0 endpoints. -/
theorem SyncEndpoints_zeroes_absent_witness :
    ∃ hcs1,
      SyncEndpoints { services := [(mknsn "a" "b", { port := 9376, endpoints := 11 })],
                      closed := [] } [(mknsn "c" "d", 5)] = .ok hcs1 ∧
      hcs1.services.lookup (mknsn "a" "b") = some { port := 9376, endpoints := 0 } ∧
      hcs1.closed = [] := by
  obtain ⟨hcs1, h1, hzero, hclosed⟩ :=
    SyncEndpoints_zeroes_absent
      { services := [(mknsn "a" "b", { port := 9376, endpoints := 11 })], closed := [] }
      [(mknsn "c" "d", 5)]
  exact ⟨hcs1, h1,
    hzero (mknsn "a" "b") { port := 9376, endpoints := 11 } (by decide) (by decide), hclosed⟩

/-- C20: for every tracked service with identity `name` and local-endpoint count `n`, the
handler answers with status 200 when `n > 0` and with status 503 when `n = 0`, and in both
cases the body carries the namespace and name of the service and `localEndpoints = n`. -/
theorem ServeHTTP_status_and_body (hcs : server) (name : NamespacedName) (svc : hcInstance)
    (h : hcs.services.lookup name = some svc) :
    (svc.endpoints > 0 →
        ServeHTTP hcs name =
          some (200, { Service := { Namespace := name.Namespace, Name := name.Name },
                       LocalEndpoints := svc.endpoints })) ∧
      (svc.endpoints = 0 →
        ServeHTTP hcs name =
          some (503, { Service := { Namespace := name.Namespace, Name := name.Name },
                       LocalEndpoints := 0 })) := by
  constructor
  · intro hn
    simp [ServeHTTP, h, hn, StatusOK]
  · intro hn
    simp [ServeHTTP, h, hn, StatusServiceUnavailable]

/-- Witness for C20: a/b with 18 endpoints answers 200 with 18, and a/b with 0 endpoints
answers 503 with 0. -/
theorem ServeHTTP_status_and_body_witness :
    ServeHTTP { services := [(mknsn "a" "b", { port := 9376, endpoints := 18 })],
                closed := [] } (mknsn "a" "b") =
        some (200, { Service := { Namespace := "a", Name := "b" }, LocalEndpoints := 18 }) ∧
      ServeHTTP { services := [(mknsn "a" "b", { port := 9376, endpoints := 0 })],
                  closed := [] } (mknsn "a" "b") =
        some (503, { Service := { Namespace := "a", Name := "b" }, LocalEndpoints := 0 }) :=
  ⟨(ServeHTTP_status_and_body
      { services := [(mknsn "a" "b", { port := 9376, endpoints := 18 })], closed := [] }
      (mknsn "a" "b") { port := 9376, endpoints := 18 } (by decide)).1 (by decide),
    (ServeHTTP_status_and_body
      { services := [(mknsn "a" "b", { port := 9376, endpoints := 0 })], closed := [] }
      (mknsn "a" "b") { port := 9376, endpoints := 0 } (by decide)).2 (by decide)⟩

end healthcheck

namespace networkqos

/-! ## The return of `Run` and the stop channel -/

/-- C21, at the failing input: when the wait for the informer caches times out while the
stop channel is open and stays open, `Run` returns. The run consists of the wait and the
report of the error; it holds no receive from the stop channel, so `Run` has returned
although the stop channel has not been closed. -/
theorem Run_returns_with_open_stopCh :
    Run { cachesSynced := .timedOut, nadSynced := none, repairErr := none } 1 =
        [.WaitForInformerCacheSyncWithTimeout
            ["nqosCacheSynced", "nqosNamespaceSynced", "nqosPodSynced", "nqosNodeSynced"]
            .timedOut,
          .HandleError
            "timed out waiting for informer caches (networkqos,namespace,pod,node) to sync"] ∧
      RunEnv.agrees { cachesSynced := .timedOut, nadSynced := none, repairErr := none } false =
        true ∧
      RunReturns { cachesSynced := .timedOut, nadSynced := none, repairErr := none } 1 false =
        true ∧
      RunEvent.receiveStop ∉
        Run { cachesSynced := .timedOut, nadSynced := none, repairErr := none } 1 := by
  refine ⟨rfl, by decide, by decide, by decide⟩

/-! ## Retries and their delays -/

/-- C22, at the failing input: with the rate limiter `NewController` gives the policy queue,
the delay before the first requeue of the object `ns1/qos1` is 1 second, where `5ms*2^(n-1)`
gives 5 milliseconds at n = 1; and the delay before its fifteenth successive requeue is 5
seconds, where `5ms*2^(n-1)` gives 81.92 seconds at n = 15 (`maxRetries`). -/
theorem requeue_delays_differ_from_comment :
    (workqueue.When NewController.nqosQueue "ns1/qos1").1 = 1000000000 ∧
      commentDelay 1 = 5000000 ∧
      (workqueue.When NewController.nqosQueue "ns1/qos1").1 ≠ commentDelay 1 ∧
      maxRetries = 15 ∧
      (workqueue.When
          (workqueue.applyCalls NewController.nqosQueue
            (List.replicate 14 (.When "ns1/qos1"))) "ns1/qos1").1 = 5000000000 ∧
      commentDelay 15 = 81920000000 := by
  refine ⟨by decide, by decide, by decide, rfl, by decide, by decide⟩

/-! ## What the pod filter looks at -/

/-- C23, at the failing input: a pod whose only IP changes from 10.0.0.1 to 10.0.0.2 between
resource versions 1 and 2, with labels and phase unchanged, is not put on the pod queue
although its IPs on the network differ: the number of IPs is the same. -/
theorem onNQOSPodUpdate_ip_change_not_enqueued :
    onNQOSPodUpdate (sampleHelpers "zone1") (emptyController : Controller Nat)
        (.ofPod (some { meta := mkMeta "ns1" "pod1" "1", NodeName := "n1", Phase := "Running",
                        PodIPs := ["10.0.0.1"] }))
        (.ofPod (some { meta := mkMeta "ns1" "pod1" "2", NodeName := "n1", Phase := "Running",
                        PodIPs := ["10.0.0.2"] })) =
        emptyController ∧
      ((sampleHelpers "zone1").GetPodIPsOfNetwork
          { meta := mkMeta "ns1" "pod1" "1", NodeName := "n1", Phase := "Running",
            PodIPs := ["10.0.0.1"] }).1 ≠
        ((sampleHelpers "zone1").GetPodIPsOfNetwork
          { meta := mkMeta "ns1" "pod1" "2", NodeName := "n1", Phase := "Running",
            PodIPs := ["10.0.0.2"] }).1 := by
  refine ⟨rfl, by decide⟩

/-- C24, at the failing input: a pod that gets scheduled (its node changes from none to
`node1`) and a pod whose node changes from `node1` to `node2`, each between resource
versions 1 and 2 with labels, IPs and phase unchanged, are not put on the pod queue. -/
theorem onNQOSPodUpdate_node_change_not_enqueued :
    onNQOSPodUpdate (sampleHelpers "zone1") (emptyController : Controller Nat)
        (.ofPod (some { meta := mkMeta "ns1" "pod1" "1", NodeName := "", Phase := "Pending",
                        PodIPs := [] }))
        (.ofPod (some { meta := mkMeta "ns1" "pod1" "2", NodeName := "node1",
                        Phase := "Pending", PodIPs := [] })) =
        emptyController ∧
      onNQOSPodUpdate (sampleHelpers "zone1") (emptyController : Controller Nat)
        (.ofPod (some { meta := mkMeta "ns1" "pod1" "1", NodeName := "node1",
                        Phase := "Running", PodIPs := ["10.0.0.1"] }))
        (.ofPod (some { meta := mkMeta "ns1" "pod1" "2", NodeName := "node2",
                        Phase := "Running", PodIPs := ["10.0.0.1"] })) =
        emptyController := by
  constructor <;> rfl

/-! ## The shape of the queued events -/

section shapes

variable {Spec : Type}

/-- C28: the namespace and pod handlers queue exactly the events they are given, in the
shape of the event kind. An add handler given a non-nil object `x` adds exactly the item
(absent, x); a delete handler given `x`, directly or inside a tombstone, adds exactly the
item (x, absent); an update handler given non-nil `o` and `n` adds exactly the item (o, n)
unless the update is a resync, a deletion or without a change the filter looks at, and then
adds nothing. For every other input (a nil pointer, an object of another type) the queue is
left as it was: the add and update handlers report an error for a nil pointer, the delete
handlers return without a report, also for a nil pointer inside a tombstone. Hence every
queued item has at least one side present. -/
theorem handlers_enqueue_shaped_events (u : Helpers) (c : Controller Spec) :
    ((∀ ns, onNQOSNamespaceAdd c (.ofNamespace (some ns)) =
          { c with nqosNamespaceQueue :=
              c.nqosNamespaceQueue ++ [{ old := none, new := some ns }] }) ∧
      (∀ obj, (∀ ns, obj ≠ .ofNamespace (some ns)) →
        (onNQOSNamespaceAdd c obj).nqosNamespaceQueue = c.nqosNamespaceQueue) ∧
      (∀ ns, onNQOSNamespaceDelete c (.ofNamespace (some ns)) =
          { c with nqosNamespaceQueue :=
              c.nqosNamespaceQueue ++ [{ old := some ns, new := none }] }) ∧
      (∀ key ns, onNQOSNamespaceDelete c (.tombstone key (.ofNamespace (some ns))) =
          { c with nqosNamespaceQueue :=
              c.nqosNamespaceQueue ++ [{ old := some ns, new := none }] }) ∧
      (∀ obj, (∀ ns, obj ≠ .ofNamespace (some ns)) →
        (∀ key ns, obj ≠ .tombstone key (.ofNamespace (some ns))) →
        (onNQOSNamespaceDelete c obj).nqosNamespaceQueue = c.nqosNamespaceQueue) ∧
      (∀ o n, onNQOSNamespaceUpdate c (.ofNamespace (some o)) (.ofNamespace (some n)) =
          if (o.meta.ResourceVersion == n.meta.ResourceVersion ||
              !Time.IsZero n.meta.DeletionTimestamp) = true then c
          else if labels.Equals o.meta.Labels n.meta.Labels = true then c
          else { c with nqosNamespaceQueue :=
                  c.nqosNamespaceQueue ++ [{ old := some o, new := some n }] }) ∧
      (∀ oldObj newObj,
        (∀ o n, ¬ (oldObj = .ofNamespace (some o) ∧ newObj = .ofNamespace (some n))) →
        (onNQOSNamespaceUpdate c oldObj newObj).nqosNamespaceQueue = c.nqosNamespaceQueue)) ∧
    ((∀ pod, onNQOSPodAdd c (.ofPod (some pod)) =
          { c with nqosPodQueue := c.nqosPodQueue ++ [{ old := none, new := some pod }] }) ∧
      (∀ obj, (∀ pod, obj ≠ .ofPod (some pod)) →
        (onNQOSPodAdd c obj).nqosPodQueue = c.nqosPodQueue) ∧
      (∀ pod, onNQOSPodDelete c (.ofPod (some pod)) =
          { c with nqosPodQueue := c.nqosPodQueue ++ [{ old := some pod, new := none }] }) ∧
      (∀ key pod, onNQOSPodDelete c (.tombstone key (.ofPod (some pod))) =
          { c with nqosPodQueue := c.nqosPodQueue ++ [{ old := some pod, new := none }] }) ∧
      (∀ obj, (∀ pod, obj ≠ .ofPod (some pod)) →
        (∀ key pod, obj ≠ .tombstone key (.ofPod (some pod))) →
        (onNQOSPodDelete c obj).nqosPodQueue = c.nqosPodQueue) ∧
      (∀ o n, onNQOSPodUpdate u c (.ofPod (some o)) (.ofPod (some n)) =
          if (o.meta.ResourceVersion == n.meta.ResourceVersion ||
              !Time.IsZero n.meta.DeletionTimestamp) = true then c
          else if (labels.Equals o.meta.Labels n.meta.Labels &&
              (u.GetPodIPsOfNetwork o).1.length == (u.GetPodIPsOfNetwork n).1.length &&
              u.PodCompleted o == u.PodCompleted n) = true then c
          else { c with nqosPodQueue :=
                  c.nqosPodQueue ++ [{ old := some o, new := some n }] }) ∧
      (∀ oldObj newObj,
        (∀ o n, ¬ (oldObj = .ofPod (some o) ∧ newObj = .ofPod (some n))) →
        (onNQOSPodUpdate u c oldObj newObj).nqosPodQueue = c.nqosPodQueue)) ∧
    (onNQOSNamespaceAdd c (.ofNamespace none) = c.HandleError .emptyNamespace ∧
      onNQOSPodAdd c (.ofPod none) = c.HandleError .emptyPod ∧
      (∀ p, onNQOSNamespaceUpdate c (.ofNamespace none) (.ofNamespace p) =
        c.HandleError .emptyNamespace) ∧
      (∀ p, onNQOSNamespaceUpdate c (.ofNamespace p) (.ofNamespace none) =
        c.HandleError .emptyNamespace) ∧
      (∀ p, onNQOSPodUpdate u c (.ofPod none) (.ofPod p) = c.HandleError .emptyPod) ∧
      (∀ p, onNQOSPodUpdate u c (.ofPod p) (.ofPod none) = c.HandleError .emptyPod) ∧
      onNQOSNamespaceDelete c (.ofNamespace none) = c ∧
      (∀ key, onNQOSNamespaceDelete c (.tombstone key (.ofNamespace none)) = c) ∧
      onNQOSPodDelete c (.ofPod none) = c ∧
      (∀ key, onNQOSPodDelete c (.tombstone key (.ofPod none)) = c)) := by
  refine ⟨⟨fun _ => rfl, ?_, fun _ => rfl, fun _ _ => rfl, ?_, fun _ _ => rfl, ?_⟩,
    ⟨fun _ => rfl, ?_, fun _ => rfl, fun _ _ => rfl, ?_, fun _ _ => rfl, ?_⟩,
    ⟨rfl, rfl, ?_, ?_, ?_, ?_, rfl, fun _ => rfl, rfl, fun _ => rfl⟩⟩
  · intro obj hne
    rcases obj with _ | p | p | p | p | ⟨k, t⟩ | k | _ <;> try rfl
    cases p with
    | none => rfl
    | some ns => exact absurd rfl (hne ns)
  · intro obj hne hnet
    rcases obj with _ | p | p | p | p | ⟨k, t⟩ | k | _ <;> try rfl
    · cases p with
      | none => rfl
      | some ns => exact absurd rfl (hne ns)
    · rcases t with _ | p | p | p | p | ⟨k2, t2⟩ | k2 | _ <;> try rfl
      cases p with
      | none => rfl
      | some ns => exact absurd rfl (hnet k ns)
  · intro oldObj newObj hne
    rcases oldObj with _ | p | p | p | p | ⟨k, t⟩ | k | _ <;> try rfl
    rcases newObj with _ | q | q | q | q | ⟨k, t⟩ | k | _ <;> try rfl
    cases p with
    | none => cases q <;> rfl
    | some o =>
      cases q with
      | none => rfl
      | some n => exact absurd ⟨rfl, rfl⟩ (hne o n)
  · intro obj hne
    rcases obj with _ | p | p | p | p | ⟨k, t⟩ | k | _ <;> try rfl
    cases p with
    | none => rfl
    | some pod => exact absurd rfl (hne pod)
  · intro obj hne hnet
    rcases obj with _ | p | p | p | p | ⟨k, t⟩ | k | _ <;> try rfl
    · cases p with
      | none => rfl
      | some pod => exact absurd rfl (hne pod)
    · rcases t with _ | p | p | p | p | ⟨k2, t2⟩ | k2 | _ <;> try rfl
      cases p with
      | none => rfl
      | some pod => exact absurd rfl (hnet k pod)
  · intro oldObj newObj hne
    rcases oldObj with _ | p | p | p | p | ⟨k, t⟩ | k | _ <;> try rfl
    rcases newObj with _ | q | q | q | q | ⟨k, t⟩ | k | _ <;> try rfl
    cases p with
    | none => cases q <;> rfl
    | some o =>
      cases q with
      | none => rfl
      | some n => exact absurd ⟨rfl, rfl⟩ (hne o n)
  · intro p; cases p <;> rfl
  · intro p; cases p <;> rfl
  · intro p; cases p <;> rfl
  · intro p; cases p <;> rfl

/-- Witness for C28: a delete notification that delivers a NetworkQoS to the pod delete
handler leaves the pod queue as it was, and the pod `ns1/pod1` delivered to the pod add
handler is queued as (absent, pod). -/
theorem handlers_enqueue_shaped_events_witness :
    (onNQOSPodDelete (emptyController : Controller Nat)
        (.ofNetworkQoS (some { meta := mkMeta "ns1" "qos1" "1", Spec := 10 }))).nqosPodQueue =
        [] ∧
      onNQOSPodAdd (emptyController : Controller Nat)
          (.ofPod (some { meta := mkMeta "ns1" "pod1" "1", NodeName := "n1",
                          Phase := "Running", PodIPs := ["10.0.0.1"] })) =
        { (emptyController : Controller Nat) with
          nqosPodQueue :=
            [{ old := none,
               new := some { meta := mkMeta "ns1" "pod1" "1", NodeName := "n1",
                             Phase := "Running", PodIPs := ["10.0.0.1"] } }] } :=
  ⟨(handlers_enqueue_shaped_events (sampleHelpers "zone1")
      (emptyController : Controller Nat)).2.1.2.2.2.2.1
      (.ofNetworkQoS (some { meta := mkMeta "ns1" "qos1" "1", Spec := 10 }))
      (fun _ h => by cases h) (fun _ _ h => by cases h),
    (handlers_enqueue_shaped_events (sampleHelpers "zone1")
      (emptyController : Controller Nat)).2.1.1 _⟩

/-- C29: `eventData.name` and `eventData.namespace` return the name and namespace of the
old object when the old side is present, otherwise those of the new object when the new
side is present, otherwise the empty string; they are defined for every event. -/
theorem eventData_name_namespace (T : Type) [Object T] (e : eventData T) :
    (∀ o, e.old = some o →
        e.name = Object.GetName o ∧ e.namespace = Object.GetNamespace o) ∧
      (e.old = none → ∀ n, e.new = some n →
        e.name = Object.GetName n ∧ e.namespace = Object.GetNamespace n) ∧
      (e.old = none → e.new = none → e.name = "" ∧ e.namespace = "") := by
  refine ⟨?_, ?_, ?_⟩
  · intro o ho
    simp [eventData.name, eventData.namespace, ho]
  · intro ho n hn
    simp [eventData.name, eventData.namespace, ho, hn]
  · intro ho hn
    simp [eventData.name, eventData.namespace, ho, hn]

/-- Witness for C29: for an update event of a pod renamed in the new snapshot the old name
is returned; for an add event the name of the new object; for an event without sides the
empty string. -/
theorem eventData_name_namespace_witness :
    (newEventData
        (some ({ meta := mkMeta "ns1" "old" "1", NodeName := "", Phase := "", PodIPs := [] } :
          Pod))
        (some { meta := mkMeta "ns2" "new" "2", NodeName := "", Phase := "",
                PodIPs := [] })).name = "old" ∧
      (newEventData none (some ({ meta := mkMeta "" "ns1" "1" } : Namespace))).name = "ns1" ∧
      (newEventData (none : Option Pod) none).namespace = "" :=
  ⟨((eventData_name_namespace Pod _).1 _ rfl).1,
    ((eventData_name_namespace Namespace _).2.1 rfl _ rfl).1,
    ((eventData_name_namespace Pod _).2.2 rfl rfl).2⟩

end shapes

end networkqos

namespace ovsdb

/-! ## Lemmas on the generated copy and equality helpers -/

theorem copy_make (l : List String) : copy (make l.length) l = l := by
  simp [copy, make]

theorem copySlice_eq (a : Option (List String)) : copySlice a = a := by
  cases a with
  | none => rfl
  | some l => simp [copySlice, copy_make]

theorem sliceLoop_iff (b a : List String) (i : Nat) :
    sliceLoop b i a = true ↔ ∀ j, j < a.length → b[i + j]? = a[j]? := by
  induction a generalizing i with
  | nil => simp [sliceLoop]
  | cons v rest ih =>
    simp only [sliceLoop, List.length_cons]
    constructor
    · intro h j hj
      by_cases hv : b[i]? = some v
      · simp only [hv, bne_self_eq_false, Bool.false_eq_true, ↓reduceIte] at h
        cases j with
        | zero => simpa using hv
        | succ j =>
          have := (ih (i + 1)).1 h j (by omega)
          simpa [Nat.add_assoc, Nat.add_comm 1 j] using this
      · have hne : (b[i]? != some v) = true := by simpa using hv
        simp [hne] at h
    · intro h
      have h0 : b[i]? = some v := by simpa using h 0 (by omega)
      simp only [h0, bne_self_eq_false, Bool.false_eq_true, ↓reduceIte]
      refine (ih (i + 1)).2 ?_
      intro j hj
      have := h (j + 1) (by omega)
      simpa [Nat.add_assoc, Nat.add_comm 1 j] using this

theorem equalSlice_iff (a b : Option (List String)) : equalSlice a b = true ↔ a = b := by
  cases a with
  | none => cases b <;> simp [equalSlice, sliceLoop]
  | some x =>
    cases b with
    | none => simp [equalSlice]
    | some y =>
      simp only [equalSlice, Option.isNone_some, bne_self_eq_false, Bool.false_eq_true,
        ↓reduceIte, Option.getD_some, Option.some.injEq]
      by_cases hlen : x.length = y.length
      · simp only [hlen, bne_self_eq_false, Bool.false_eq_true, ↓reduceIte, sliceLoop_iff,
          Nat.zero_add]
        constructor
        · intro h
          apply List.ext_getElem? 
          intro j
          by_cases hj : j < x.length
          · exact (h j (by omega)).symm
          · have h1 : x[j]? = none := List.getElem?_eq_none (by omega)
            have h2 : y[j]? = none := List.getElem?_eq_none (by omega)
            rw [h1, h2]
        · intro h j _
          rw [h]
      · have hne : (x.length != y.length) = true := by simpa using hlen
        simp only [hne, ↓reduceIte, Bool.false_eq_true, false_iff]
        intro h
        exact hlen (by rw [h])

theorem StringMap_ext (a b : networkqos.StringMap) (h : a.entries = b.entries) : a = b := by
  cases a
  cases b
  simp only at h
  subst h
  rfl

theorem foldl_mapSet_entries (l : List (String × String)) (acc : networkqos.StringMap)
    (hl : (l.map Prod.fst).Nodup) (hdis : ∀ k, k ∈ l.map Prod.fst → k ∉ acc.entries.map Prod.fst) :
    (l.foldl (fun b kv => mapSet b kv.1 kv.2) acc).entries = acc.entries ++ l := by
  induction l generalizing acc with
  | nil => simp
  | cons hd tl ih =>
    obtain ⟨k, v⟩ := hd
    simp only [List.map_cons, List.nodup_cons] at hl
    have hk : k ∉ acc.entries.map Prod.fst := hdis k (by simp)
    have hfilter : acc.entries.filter (fun e => e.1 != k) = acc.entries := by
      apply List.filter_eq_self.2
      intro e he
      have : e.1 ≠ k := fun h => hk (List.mem_map.2 ⟨e, he, h⟩)
      simpa using this
    have hset : (mapSet acc k v).entries = acc.entries ++ [(k, v)] := by
      simp [mapSet, hfilter]
    rw [List.foldl_cons, ih (mapSet acc k v) hl.2, hset]
    · simp
    · intro k2 hk2
      rw [hset]
      simp only [List.map_append, List.map_cons, List.map_nil, List.mem_append,
        List.mem_singleton, not_or]
      refine ⟨hdis k2 (by simp [hk2]), ?_⟩
      intro h
      exact hl.1 (h ▸ hk2)

theorem copyMap_eq (a : Option networkqos.StringMap) : copyMap a = a := by
  cases a with
  | none => rfl
  | some m =>
    simp only [copyMap, Option.some.injEq]
    apply StringMap_ext
    rw [foldl_mapSet_entries m.entries makeMap m.nodup (by simp [makeMap])]
    simp [makeMap]

theorem copyPtr_eq {T : Type} (a : Option T) : copyPtr a = a := by
  cases a <;> rfl

theorem equalPtr_iff {T : Type} [DecidableEq T] (a b : Option T) :
    equalPtr a b = true ↔ a = b := by
  cases a <;> cases b <;> simp [equalPtr]

theorem equalMap_iff (a b : Option networkqos.StringMap) :
    equalMap a b = true ↔
      a.isSome = b.isSome ∧
        ∀ k, networkqos.StringMap.get? a k = networkqos.StringMap.get? b k := by
  have key := networkqos.entries_check_iff_lookup_eq (networkqos.StringMap.range a)
    (networkqos.StringMap.range b) (networkqos.range_nodup_keys a)
    (networkqos.range_nodup_keys b)
  simp only [← networkqos.get?_eq_range_lookup, ← networkqos.len_eq_range_length] at key
  rw [← key]
  unfold equalMap
  by_cases hnil : a.isNone = b.isNone
  · have hsome : a.isSome = b.isSome := by
      cases a <;> cases b <;> simp_all
    by_cases hlen : networkqos.StringMap.len a = networkqos.StringMap.len b
    · simp only [hnil, bne_self_eq_false, Bool.false_eq_true, ↓reduceIte, hlen,
        List.all_eq_true, hsome, true_and]
      constructor
      · intro h kv hkv
        have := h kv hkv
        cases hg : networkqos.StringMap.get? b kv.1 with
        | none => simp [hg] at this
        | some w =>
          simp only [hg, beq_iff_eq] at this
          rw [this]
      · intro h kv hkv
        simp [h kv hkv]
    · simp [hnil, hlen]
  · have hsome : ¬ a.isSome = b.isSome := by
      cases a <;> cases b <;> simp_all
    have hne : (a.isNone != b.isNone) = true := by simpa using hnil
    simp [hne, hsome]

end ovsdb

namespace nbdb

/-! ## `PortGroup.Equals` and `PortGroup.DeepCopy` -/

theorem PortGroup_Equals_iff (a b : PortGroup) :
    a.Equals b = true ↔
      a.UUID = b.UUID ∧ a.Name = b.Name ∧ a.ACLs = b.ACLs ∧ a.Ports = b.Ports ∧
        a.ExternalIDs.isSome = b.ExternalIDs.isSome ∧
        ∀ k, networkqos.StringMap.get? a.ExternalIDs k =
          networkqos.StringMap.get? b.ExternalIDs k := by
  simp only [PortGroup.Equals, equalPortGroupACLs, equalPortGroupExternalIDs,
    equalPortGroupPorts, Bool.and_eq_true, beq_iff_eq, ovsdb.equalSlice_iff,
    ovsdb.equalMap_iff]
  constructor
  · rintro ⟨⟨⟨⟨h1, h2⟩, h3, h4⟩, h5⟩, h6⟩
    exact ⟨h1, h5, h2, h6, h3, h4⟩
  · rintro ⟨h1, h5, h2, h6, h3, h4⟩
    exact ⟨⟨⟨⟨h1, h2⟩, h3, h4⟩, h5⟩, h6⟩

theorem PortGroup_DeepCopy_eq (a : PortGroup) : a.DeepCopy = a := by
  simp [PortGroup.DeepCopy, copyPortGroupACLs, copyPortGroupExternalIDs, copyPortGroupPorts,
    ovsdb.copySlice_eq, ovsdb.copyMap_eq]

/-- C26: `PortGroup.Equals` is structural equality: `a.Equals(b)` holds if and only if the
UUIDs are equal, the names are equal, `ACLs` and `Ports` are each equal as sequences (same
elements in the same order, a nil slice only equal to a nil slice), and `ExternalIDs` are
both nil or both non-nil and bind every key alike. Hence `Equals` is reflexive, symmetric
and transitive; two port groups that list the same ports in another order are not equal,
and neither are a nil and an empty slice or a nil and an empty map. -/
theorem PortGroup_Equals_structural :
    (∀ a b : PortGroup,
        a.Equals b = true ↔
          a.UUID = b.UUID ∧ a.Name = b.Name ∧ a.ACLs = b.ACLs ∧ a.Ports = b.Ports ∧
            a.ExternalIDs.isSome = b.ExternalIDs.isSome ∧
            ∀ k, networkqos.StringMap.get? a.ExternalIDs k =
              networkqos.StringMap.get? b.ExternalIDs k) ∧
      (∀ a : PortGroup, a.Equals a = true) ∧
      (∀ a b : PortGroup, a.Equals b = true → b.Equals a = true) ∧
      (∀ a b c : PortGroup, a.Equals b = true → b.Equals c = true → a.Equals c = true) ∧
      PortGroup.Equals
          { UUID := "u", ACLs := none, ExternalIDs := none, Name := "pg",
            Ports := some ["p1", "p2"] }
          { UUID := "u", ACLs := none, ExternalIDs := none, Name := "pg",
            Ports := some ["p2", "p1"] } = false ∧
      PortGroup.Equals
          { UUID := "u", ACLs := none, ExternalIDs := none, Name := "pg", Ports := none }
          { UUID := "u", ACLs := some [], ExternalIDs := none, Name := "pg", Ports := none } =
        false ∧
      PortGroup.Equals
          { UUID := "u", ACLs := none, ExternalIDs := none, Name := "pg", Ports := none }
          { UUID := "u", ACLs := none, ExternalIDs := some ovsdb.makeMap, Name := "pg",
            Ports := none } = false := by
  refine ⟨PortGroup_Equals_iff, ?_, ?_, ?_, by decide, by decide, by decide⟩
  · intro a
    exact (PortGroup_Equals_iff a a).2 ⟨rfl, rfl, rfl, rfl, rfl, fun _ => rfl⟩
  · intro a b h
    obtain ⟨h1, h2, h3, h4, h5, h6⟩ := (PortGroup_Equals_iff a b).1 h
    exact (PortGroup_Equals_iff b a).2
      ⟨h1.symm, h2.symm, h3.symm, h4.symm, h5.symm, fun k => (h6 k).symm⟩
  · intro a b c hab hbc
    obtain ⟨h1, h2, h3, h4, h5, h6⟩ := (PortGroup_Equals_iff a b).1 hab
    obtain ⟨g1, g2, g3, g4, g5, g6⟩ := (PortGroup_Equals_iff b c).1 hbc
    exact (PortGroup_Equals_iff a c).2
      ⟨h1.trans g1, h2.trans g2, h3.trans g3, h4.trans g4, h5.trans g5,
        fun k => (h6 k).trans (g6 k)⟩

/-- Witness for C26: two port groups whose external IDs hold the same two pairs, entered in
another order, are equal in both directions. -/
theorem PortGroup_Equals_structural_witness :
    PortGroup.Equals
        { UUID := "u", ACLs := some ["acl1"], Name := "pg", Ports := some ["p1", "p2"],
          ExternalIDs := some (ovsdb.mapSet (ovsdb.mapSet ovsdb.makeMap "a" "1") "b" "2") }
        { UUID := "u", ACLs := some ["acl1"], Name := "pg", Ports := some ["p1", "p2"],
          ExternalIDs := some (ovsdb.mapSet (ovsdb.mapSet ovsdb.makeMap "b" "2") "a" "1") } =
      true ∧
    PortGroup.Equals
        { UUID := "u", ACLs := some ["acl1"], Name := "pg", Ports := some ["p1", "p2"],
          ExternalIDs := some (ovsdb.mapSet (ovsdb.mapSet ovsdb.makeMap "b" "2") "a" "1") }
        { UUID := "u", ACLs := some ["acl1"], Name := "pg", Ports := some ["p1", "p2"],
          ExternalIDs := some (ovsdb.mapSet (ovsdb.mapSet ovsdb.makeMap "a" "1") "b" "2") } =
      true :=
  ⟨by decide, PortGroup_Equals_structural.2.2.1 _ _ (by decide)⟩

end nbdb

namespace vswitchd

/-! ## `Manager.Equals` and `Manager.DeepCopy` -/

theorem Manager_DeepCopy_eq (a : Manager) : a.DeepCopy = a := by
  simp [Manager.DeepCopy, copyManagerConnectionMode, copyManagerExternalIDs,
    copyManagerInactivityProbe, copyManagerMaxBackoff, copyManagerOtherConfig,
    copyManagerStatus, ovsdb.copyPtr_eq, ovsdb.copyMap_eq]

theorem Manager_Equals_self (a : Manager) : a.Equals a = true := by
  simp [Manager.Equals, equalManagerConnectionMode, equalManagerExternalIDs,
    equalManagerInactivityProbe, equalManagerMaxBackoff, equalManagerOtherConfig,
    equalManagerStatus, ovsdb.equalPtr_iff, ovsdb.equalMap_iff]

/-- C27: `DeepCopy` is a value-preserving clone of the generated row types: for every
`PortGroup` p, `p.Equals(p.DeepCopy())` holds and the copy has the same UUID, name, ACLs,
ports and external IDs; for every `Manager` m, `m.Equals(m.DeepCopy())` holds and the copy
has the same value in every column. A nil slice or map and an absent `ConnectionMode`,
`InactivityProbe` or `MaxBackoff` stay nil, and an empty non-nil slice or map stays
non-nil. -/
theorem DeepCopy_preserves_value :
    (∀ p : nbdb.PortGroup, p.Equals p.DeepCopy = true ∧ p.DeepCopy = p) ∧
      (∀ m : Manager, m.Equals m.DeepCopy = true ∧ m.DeepCopy = m) ∧
      (∀ uuid name : String,
        nbdb.PortGroup.DeepCopy
            { UUID := uuid, ACLs := none, ExternalIDs := none, Name := name,
              Ports := some [] } =
          { UUID := uuid, ACLs := none, ExternalIDs := none, Name := name,
            Ports := some [] }) ∧
      (∀ uuid target : String,
        Manager.DeepCopy
            { UUID := uuid, ConnectionMode := none, ExternalIDs := some ovsdb.makeMap,
              InactivityProbe := none, IsConnected := true, MaxBackoff := none,
              OtherConfig := none, Status := none, Target := target } =
          { UUID := uuid, ConnectionMode := none, ExternalIDs := some ovsdb.makeMap,
            InactivityProbe := none, IsConnected := true, MaxBackoff := none,
            OtherConfig := none, Status := none, Target := target }) := by
  refine ⟨?_, ?_, ?_, ?_⟩
  · intro p
    rw [nbdb.PortGroup_DeepCopy_eq]
    exact ⟨(nbdb.PortGroup_Equals_iff p p).2 ⟨rfl, rfl, rfl, rfl, rfl, fun _ => rfl⟩, rfl⟩
  · intro m
    rw [Manager_DeepCopy_eq]
    exact ⟨Manager_Equals_self m, rfl⟩
  · intro uuid name
    exact nbdb.PortGroup_DeepCopy_eq _
  · intro uuid target
    exact Manager_DeepCopy_eq _

end vswitchd

namespace netip

/-! ## Stepping through the addresses of a family -/

/-- For an IPv4 or IPv6 address without zone, `Next` is the zero `Addr` at the last address
of the family and the address one further otherwise. -/
theorem Next_of_parsed (ip : Addr)
    (h : (ip.z = .z4 ∧ ip.addr / 2 ^ 32 = 0xffff) ∨ (ip.z = .z6noz ∧ ip.addr < 2 ^ 128)) :
    ip.Next = if ip.addr = ip.last then Addr.zero else { ip with addr := ip.addr + 1 } := by
  obtain ⟨a, z⟩ := ip
  rcases h with ⟨hz, ha⟩ | ⟨hz, ha⟩
  · simp only at hz ha
    subst hz
    norm_num at ha
    have hmod : (a + 1) % 2 ^ 128 = a + 1 := by
      apply Nat.mod_eq_of_lt
      norm_num
      omega
    by_cases hlast : a = 0xffffffffffff
    · subst hlast
      simp [Addr.Next, Addr.Is4, Addr.last]
    · have h32 : ¬ (a + 1) % 2 ^ 32 = 0 := by
        norm_num
        norm_num at hlast
        omega
      norm_num at hmod h32 hlast
      have hmod2 := Nat.mod_eq_of_lt hmod
      simp [Addr.Next, Addr.Is4, Addr.last, hmod2, h32, hlast]
  · simp only at hz ha
    subst hz
    by_cases hlast : a = 2 ^ 128 - 1
    · subst hlast
      simp [Addr.Next, Addr.Is4, Addr.last]
    · have hmod : (a + 1) % 2 ^ 128 = a + 1 := by
        apply Nat.mod_eq_of_lt
        norm_num at ha hlast ⊢
        omega
      norm_num at hmod hlast
      have hmod2 := Nat.mod_eq_of_lt hmod
      simp [Addr.Next, Addr.Is4, Addr.last, hmod2, hlast]

theorem le_last_of_parsed (ip : Addr)
    (h : (ip.z = .z4 ∧ ip.addr / 2 ^ 32 = 0xffff) ∨ (ip.z = .z6noz ∧ ip.addr < 2 ^ 128)) :
    ip.addr ≤ ip.last := by
  rcases h with ⟨hz, ha⟩ | ⟨hz, ha⟩
  · norm_num at ha
    simp only [Addr.last, hz, ↓reduceIte]
    omega
  · norm_num at ha
    have hne : ¬ Zone.z6noz = Zone.z4 := by decide
    simp only [Addr.last, hz, hne, ↓reduceIte]
    norm_num
    omega

theorem parsed_succ (ip : Addr)
    (h : (ip.z = .z4 ∧ ip.addr / 2 ^ 32 = 0xffff) ∨ (ip.z = .z6noz ∧ ip.addr < 2 ^ 128))
    (hlast : ip.addr ≠ ip.last) :
    (ip.z = .z4 ∧ (ip.addr + 1) / 2 ^ 32 = 0xffff) ∨
      (ip.z = .z6noz ∧ ip.addr + 1 < 2 ^ 128) := by
  rcases h with ⟨hz, ha⟩ | ⟨hz, ha⟩
  · left
    simp only [Addr.last, hz, ↓reduceIte] at hlast
    norm_num at ha hlast ⊢
    exact ⟨hz, by omega⟩
  · right
    have hne : ¬ Zone.z6noz = Zone.z4 := by decide
    simp only [Addr.last, hz, hne, ↓reduceIte] at hlast
    norm_num at ha hlast ⊢
    exact ⟨hz, by omega⟩

end netip

namespace e2e

/-! ## `computeIPWithOffset` -/

theorem nextLoop_of_parsed (k : Nat) (ip : netip.Addr)
    (h : (ip.z = .z4 ∧ ip.addr / 2 ^ 32 = 0xffff) ∨ (ip.z = .z6noz ∧ ip.addr < 2 ^ 128)) :
    (nextLoop k ip).1 =
        (if ip.addr + k ≤ ip.last then .ok { ip with addr := ip.addr + k }
         else .error "overflow: IP address exceeds bounds") ∧
      (nextLoop k ip).2 ≤ k := by
  induction k generalizing ip with
  | zero =>
    have hle := netip.le_last_of_parsed ip h
    simp [nextLoop, hle]
  | succ k ih =>
    have hle := netip.le_last_of_parsed ip h
    by_cases hlast : ip.addr = ip.last
    · have hgt : ¬ ip.addr + (k + 1) ≤ ip.last := by omega
      simp [nextLoop, netip.Next_of_parsed ip h, hlast, netip.Addr.IsValid, netip.Addr.zero,
        hgt]
    · have hwf := netip.parsed_succ ip h hlast
      have hvalid : netip.Addr.IsValid { ip with addr := ip.addr + 1 } = true := by
        rcases h with ⟨hz, -⟩ | ⟨hz, -⟩ <;> simp [netip.Addr.IsValid, hz]
      obtain ⟨ih1, ih2⟩ := ih { ip with addr := ip.addr + 1 } hwf
      have hlast2 : netip.Addr.last { ip with addr := ip.addr + 1 } = ip.last := rfl
      simp only [nextLoop, netip.Next_of_parsed ip h, hlast, ↓reduceIte, hvalid,
        Bool.not_true, Bool.false_eq_true, ih1, hlast2]
      refine ⟨?_, by omega⟩
      have hadd : ip.addr + 1 + k = ip.addr + (k + 1) := by omega
      simp only [hadd]

theorem PrefixFrom_of_parsed (p : netip.Prefix) (hp : p.parsed = true) (a : Nat) :
    netip.PrefixFrom { addr := a, z := p.ip.z } p.bits =
      { ip := { addr := a, z := p.ip.z }, bits := p.bits } := by
  simp only [netip.Prefix.parsed, Bool.and_eq_true, Bool.or_eq_true, beq_iff_eq,
    decide_eq_true_eq] at hp
  obtain ⟨⟨⟨⟨hz, -⟩, -⟩, hb0⟩, hb1⟩ := hp
  rcases hz with hz | hz <;>
    simp_all [netip.PrefixFrom, netip.Addr.withoutZone, netip.Addr.BitLen]

theorem parsed_addr (p : netip.Prefix) (hp : p.parsed = true) :
    (p.ip.z = .z4 ∧ p.ip.addr / 2 ^ 32 = 0xffff) ∨ (p.ip.z = .z6noz ∧ p.ip.addr < 2 ^ 128) := by
  simp only [netip.Prefix.parsed, Bool.and_eq_true, Bool.or_eq_true, beq_iff_eq,
    decide_eq_true_eq, bne_iff_ne, ne_eq] at hp
  obtain ⟨⟨⟨⟨hz, hlt⟩, h4⟩, -⟩, -⟩ := hp
  rcases hz with hz | hz
  · left
    rcases h4 with h4 | h4
    · exact absurd hz h4
    · exact ⟨hz, h4⟩
  · exact Or.inr ⟨hz, hlt⟩

/-- C30: when `baseAddr` parses as a prefix with address `a` and length `b`, then for every
`n >= 0` `computeIPWithOffset(baseAddr, n)` is the text of the prefix with the address
`a + n` of the same family and the same length `b` if `a + n` does not pass the last address
of the family, and the error "overflow: IP address exceeds bounds" otherwise; the loop runs
at most `n` times; for `n <= 0` the result is the text of the prefix with the address
unchanged. When `baseAddr` does not parse, the result is an error. -/
theorem computeIPWithOffset_spec (lib : netip.Text) (baseAddr : String) :
    (∀ p, lib.ParsePrefix baseAddr = .ok p → p.parsed = true →
        (∀ n : Nat,
          (p.ip.addr + n ≤ p.ip.last →
            computeIPWithOffset lib baseAddr (n : Int) =
              .ok (lib.String { ip := { addr := p.ip.addr + n, z := p.ip.z },
                                bits := p.bits })) ∧
          (p.ip.last < p.ip.addr + n →
            computeIPWithOffset lib baseAddr (n : Int) =
              .error "overflow: IP address exceeds bounds") ∧
          (nextLoop n p.ip).2 ≤ n) ∧
        (∀ increment : Int, increment ≤ 0 →
          computeIPWithOffset lib baseAddr increment = .ok (lib.String p))) ∧
      (∀ err, lib.ParsePrefix baseAddr = .error err →
        ∀ increment : Int,
          computeIPWithOffset lib baseAddr increment =
            .error ("Failed to parse CIDR " ++ err)) := by
  constructor
  · intro p hparse hp
    have hwf := parsed_addr p hp
    constructor
    · intro n
      obtain ⟨h1, h2⟩ := nextLoop_of_parsed n p.ip hwf
      refine ⟨?_, ?_, h2⟩
      · intro hle
        simp only [computeIPWithOffset, hparse, Int.toNat_ofNat, netip.Prefix.Addr, h1, hle,
          ↓reduceIte, netip.Prefix.Bits]
        rw [PrefixFrom_of_parsed p hp]
      · intro hgt
        have hnle : ¬ p.ip.addr + n ≤ p.ip.last := by omega
        simp only [computeIPWithOffset, hparse, Int.toNat_ofNat, netip.Prefix.Addr, h1, hnle,
          ↓reduceIte]
    · intro increment hneg
      have h0 : increment.toNat = 0 := by omega
      simp only [computeIPWithOffset, hparse, h0, nextLoop, netip.Prefix.Addr,
        netip.Prefix.Bits]
      have := PrefixFrom_of_parsed p hp p.ip.addr
      rw [this]
  · intro err hparse increment
    simp [computeIPWithOffset, hparse]

/-- Witness for C30: three steps from 10.0.0.254/24 give 10.0.1.1/24, and two steps from
255.255.255.254/32 pass the last IPv4 address. -/
theorem computeIPWithOffset_spec_witness :
    computeIPWithOffset ipv4Text "10.0.0.254/24" 3 = .ok "10.0.1.1/24" ∧
      computeIPWithOffset ipv4Text "255.255.255.254/32" 2 =
        .error "overflow: IP address exceeds bounds" :=
  ⟨((((computeIPWithOffset_spec ipv4Text "10.0.0.254/24").1
        { ip := { addr := 0xffff00000000 + 167772414, z := .z4 }, bits := 24 } rfl
        (by decide)).1 3).1 (by decide)).trans (by rfl),
    ((((computeIPWithOffset_spec ipv4Text "255.255.255.254/32").1
        { ip := { addr := 0xffff00000000 + 4294967294, z := .z4 }, bits := 32 } rfl
        (by decide)).1 2).2.1 (by decide))⟩

end e2e
